import Mathlib

/-!
# Verification of the `gcodeutils` stretch-compensation engine

A shallow embedding of `src/gcodeutils/stretch/stretch.py` (the stretch
filter of the TigerGRBL/gcodeutils repository), together with theorems
settling the frozen claims about it.

Conventions of the embedding:

* Python floats are modelled as real numbers (`ℝ`); 2-D points are
  modelled as `ℂ`, matching the source's use of Python `complex`.
* The `gcoder` module (`GCode`, `Layer`, `Line`) is imported by the
  source but is not part of the repository sources given; per the spec's
  data model, a parsed `Line` carries the raw text, the command token and
  the optional `x`, `y`, `z`, `f` numeric fields.  The source re-parses
  coordinates out of the raw text with `getSplitLineBeforeBracketSemicolon`
  / `getLocationFromSplitLine`; the embedding reads the structured fields
  of the line record, which is exactly what that re-parse recovers.
* Python attributes that are only assigned when the edge-width marker is
  seen (`crossLimitDistance`, `pathAbsoluteStretch`, ...) are modelled as
  `Option ℝ` fields that start as `none`; reading such a field while it is
  `none` is an `AttributeError`, modelled as `Except.error`.
* Unbounded `while` loops are embedded with an explicit fuel parameter;
  running out of fuel is a distinct `stuck` outcome, never identified with
  the `StopIteration` (`exhausted`) outcome that the Python code raises
  and catches.
-/

set_option maxHeartbeats 1600000

namespace GcodeStretch

/-- Modelled from the spec: one parsed source record of the program model
(`gcoder.Line`, not under `src/`): raw text, command token, optional
coordinates and optional feed rate. -/
structure GLine where
  raw : String := ""
  command : String := ""
  x : Option ℝ := none
  y : Option ℝ := none
  z : Option ℝ := none
  f : Option ℝ := none

/-- Modelled from the spec: `vector3.Vector3` (not under `src/`), a 3-D
point whose components default to zero. -/
structure Vector3 where
  x : ℝ := 0
  y : ℝ := 0
  z : ℝ := 0

/-- `Vector3.dropAxis` drops the z component, giving the XY point as a
complex number. -/
def Vector3.dropAxis (v : Vector3) : ℂ := ⟨v.x, v.y⟩

/-- Embeds `getDotProduct` of the source: dot product of two complexes. -/
def getDotProduct (firstComplex secondComplex : ℂ) : ℝ :=
  firstComplex.re * secondComplex.re + firstComplex.im * secondComplex.im

/-- Embeds `getLocationFromSplitLine`: each coordinate defaults to the old
location's coordinate (itself defaulting to `Vector3()`, i.e. the origin,
when there is no old location).  The string-level field extraction
(`getDoubleFromCharacterSplitLineValue`) recovers exactly the parsed
`x`/`y`/`z` fields carried on the line record. -/
def getLocationFromSplitLine (oldLocation : Option Vector3) (line : GLine) : Vector3 :=
  let old := oldLocation.getD {}
  { x := line.x.getD old.x, y := line.y.getD old.y, z := line.z.getD old.z }

/-! ## String helpers of the source -/

/-- Embeds Python `str.startswith`. -/
def pyStartswith (s p : String) : Bool := p.toList.isPrefixOf s.toList

/-- Python `str.split()` with no separator: split on blanks, dropping empty
words.  `acc` is the (reversed) word being accumulated. -/
def pySplitAux : List Char → List Char → List String
  | [], acc => if acc = [] then [] else [acc.reverse.asString]
  | c :: cs, acc =>
    if c = ' ' then
      if acc = [] then pySplitAux cs [] else acc.reverse.asString :: pySplitAux cs []
    else pySplitAux cs (c :: acc)

def pySplit (s : String) : List String := pySplitAux s.toList []

/-- Embeds `getSplitLineBeforeBracketSemicolon`: truncate at the first
semicolon; if a bracket occurs at positive index, split only the text
before it, else split the whole (truncated) line. -/
def getSplitLineBeforeBracketSemicolon (line : String) : List String :=
  let l1 := line.toList.takeWhile (fun c => c != ';')
  match l1.findIdx? (fun c => c == '(') with
  | some i => if 0 < i then pySplitAux (l1.take i) [] else pySplitAux l1 []
  | none => pySplitAux l1 []

/-! ## Edge-width marker parsing -/

/-- Digit run to a natural number. -/
def digitsToNat (cs : List Char) : ℕ :=
  cs.foldl (fun n c => 10 * n + (c.toNat - 48)) 0

/-- Embeds Python `float` on the strings matched by `[\.\d]+`: an optional
integer part, an optional single dot, an optional fraction part, with at
least one digit overall and at most one dot. -/
def parseDecimal (s : String) : Option ℚ :=
  let cs := s.toList
  let intPart := cs.takeWhile (fun c => c != '.')
  let rest := cs.dropWhile (fun c => c != '.')
  if intPart.all Char.isDigit then
    match rest with
    | [] => if intPart = [] then none else some (digitsToNat intPart)
    | _ :: frac =>
      if frac.all Char.isDigit then
        if intPart = [] && frac = [] then none
        else some ((digitsToNat intPart : ℚ) + (digitsToNat frac : ℚ) / 10 ^ frac.length)
      else none
  else none

/-- Embeds `EDGE_WIDTH_REGEXP = re.compile(r'\(<edgeWidth> ([\.\d]+)')`
used with `re.match`: the line must start with the literal marker, and the
capture is the maximal nonempty run of digits and dots that follows. -/
def edgeWidthCapture (raw : String) : Option String :=
  if pyStartswith raw "(<edgeWidth> " then
    let cap := (raw.toList.drop 13).takeWhile (fun c => c.isDigit || c == '.')
    if cap = [] then none else some cap.asString
  else none

/-! ## Repository (settings) and filter state -/

/-- Embeds `StretchRepository.__init__`: the stretch settings with their
defaults. -/
structure StretchRepository where
  activateStretch : Bool := true
  crossLimitDistanceOverEdgeWidth : ℝ := 5.0
  loopStretchOverEdgeWidth : ℝ := 0.11
  pathStretchOverEdgeWidth : ℝ := 0.0
  edgeInsideStretchOverEdgeWidth : ℝ := 0.32
  edgeOutsideStretchOverEdgeWidth : ℝ := 0.1
  stretchFromDistanceOverEdgeWidth : ℝ := 2.0

/-- One emitted output line.  Modelled from the spec: `DistanceFeedRate`
(not under `src/`) accumulates lines; `getLinearGcodeMovementWithFeedRate`
renders a linear move with the given feed rate, XY point and Z. -/
inductive OutLine where
  | raw (s : String)
  | move (feedRate : ℝ) (point : ℂ) (z : ℝ)

/-- Embeds the mutable state of `StretchFilter`.  The threshold attributes
are only assigned by `parse_initialisation_line` when the edge-width
marker matches, hence `Option ℝ` starting at `none`. -/
structure StretchFilter where
  stretchRepository : StretchRepository := {}
  edgeWidth : ℝ := 0.4
  extruderActive : Bool := false
  feedRateMinute : ℝ := 959.0
  isLoop : Bool := false
  oldLocation : Option Vector3 := none
  thread_maximum_absolute_stretch : ℝ := 0
  crossLimitDistance : Option ℝ := none
  loopMaximumAbsoluteStretch : Option ℝ := none
  pathAbsoluteStretch : Option ℝ := none
  edgeInsideAbsoluteStretch : Option ℝ := none
  edgeOutsideAbsoluteStretch : Option ℝ := none
  stretchFromDistance : Option ℝ := none
  crossLimitDistanceFraction : Option ℝ := none
  crossLimitDistanceRemainder : Option ℝ := none
  output : List OutLine := []

/-- Embeds `StretchFilter.parse_initialisation_line`.  Faithful to the
source: the parsed edge width (`float(match.group(1))`, a local variable
there) is used only for `stretchFromDistance`; every other threshold is
scaled from `self.edgeWidth`, which keeps its constructor default.  A
capture that `float` cannot parse raises (`ValueError`), modelled as
`Except.error`.  The end-of-initialization line returns `True` without
being added to the output. -/
noncomputable def parse_initialisation_line (self : StretchFilter) (line : GLine) :
    Except Unit (StretchFilter × Bool) :=
  if line.raw = "(</extruderInitialization>)" then .ok (self, true)
  else
    match edgeWidthCapture line.raw with
    | some cap =>
      match parseDecimal cap with
      | none => .error ()
      | some q =>
        let edgeWidth : ℝ := (q : ℝ)
        let repo := self.stretchRepository
        let crossLimitDistance := self.edgeWidth * repo.crossLimitDistanceOverEdgeWidth
        let pathAbsoluteStretch := self.edgeWidth * repo.pathStretchOverEdgeWidth
        let crossLimitDistanceFraction := (0.333333333 : ℝ) * crossLimitDistance
        .ok ({ self with
          crossLimitDistance := some crossLimitDistance,
          loopMaximumAbsoluteStretch := some (self.edgeWidth * repo.loopStretchOverEdgeWidth),
          pathAbsoluteStretch := some pathAbsoluteStretch,
          edgeInsideAbsoluteStretch := some (self.edgeWidth * repo.edgeInsideStretchOverEdgeWidth),
          edgeOutsideAbsoluteStretch := some (self.edgeWidth * repo.edgeOutsideStretchOverEdgeWidth),
          stretchFromDistance := some (repo.stretchFromDistanceOverEdgeWidth * edgeWidth),
          thread_maximum_absolute_stretch := pathAbsoluteStretch,
          crossLimitDistanceFraction := some crossLimitDistanceFraction,
          crossLimitDistanceRemainder := some (crossLimitDistance - crossLimitDistanceFraction),
          output := self.output ++ [.raw line.raw] }, false)
    | none => .ok ({ self with output := self.output ++ [.raw line.raw] }, false)

/-- The edge-width declaration line used as the failing input for C1:
the marker declares an edge width of `0.6`. -/
def edgeWidthLine06 : GLine := { raw := "(<edgeWidth> 0.6)" }

/-- **C1** (code bug evidence).  The claim says every threshold of the
stretch context is derived from the edge-width value `w` found in the
marker comment.  The code instead derives the cross-limit distance and all
four maximum-stretch magnitudes from the constructor default
`self.edgeWidth = 0.4` (the parsed value is a local variable that is
never stored); only the stretch-lookahead distance uses the parsed `w`.
At the failing input `(<edgeWidth> 0.6)`, the cross-limit distance comes
out as `0.4 * 5 = 2`, not the claimed `0.6 * 5 = 3`, while the lookahead
distance is `2 * 0.6 = 1.2`. -/
theorem C1_thresholds_ignore_marker_value :
    ∃ st : StretchFilter,
      parse_initialisation_line {} edgeWidthLine06 = .ok (st, false) ∧
      st.crossLimitDistance = some 2 ∧
      st.loopMaximumAbsoluteStretch = some (0.4 * 0.11) ∧
      st.stretchFromDistance = some (2.0 * 0.6) ∧
      (2 : ℝ) ≠ 0.6 * 5.0 := by
  refine ⟨_, rfl, ?_, ?_, ?_, by norm_num⟩
  · show some ((0.4 : ℝ) * 5.0) = some 2
    norm_num
  · rfl
  · show some ((2.0 : ℝ) * ((((digitsToNat [] : ℚ) + (digitsToNat ['6'] : ℚ) / 10 ^ 1) : ℚ) : ℝ))
      = some (2.0 * 0.6)
    have h6 : ('6'.toNat - 48 : ℕ) = 6 := by decide
    norm_num [digitsToNat, h6]

/-! ## Directional traversal (LineIteratorBackward / LineIteratorForward) -/

/-- The two cursor directions (the source has two classes,
`LineIteratorBackward` and the subclass `LineIteratorForward`, sharing
state and helpers and overriding `getNext`). -/
inductive IterDir where
  | forward
  | backward

/-- Embeds the shared iterator state: `isLoop`, `firstLineIndex` (set on
the first visited index, used to detect a full revisit), `lineIndex` and
the layer's line list.  `lineIndex` is an integer: the backward cursor
legitimately reaches `-1`. -/
structure LineIterator where
  dir : IterDir
  isLoop : Bool
  firstLineIndex : Option ℤ := none
  lineIndex : ℤ
  lines : List GLine

/-- `lines[i]` for the iterator's in-range accesses (all reachable
accesses of the source have `0 ≤ i < len`; Python's negative-index
wraparound is unreachable there). -/
def lineAt (lines : List GLine) (i : ℤ) : Option GLine :=
  if 0 ≤ i then lines[i.toNat]? else none

/-- Scan `xs` for the first line whose command is `cmd`, indices starting
at `i`. -/
def findFirstFrom (cmd : String) : List GLine → ℕ → Option ℕ
  | [], _ => none
  | l :: rest, i => if l.command = cmd then some i else findFirstFrom cmd rest (i + 1)

/-- Embeds `for lineIndex in xrange(start, len(lines))` searching for a
command. -/
def findIdxFrom (lines : List GLine) (start : ℕ) (cmd : String) : Option ℕ :=
  findFirstFrom cmd (lines.drop start) start

/-- Embeds `LineIteratorBackward.getIndexBeforeNextDeactivate`: index two
lines before the first `M103` at or after `lineIndex + 1`; `none` models
the `StopIteration` raised when no deactivate command exists. -/
def getIndexBeforeNextDeactivate (it : LineIterator) : Option ℤ :=
  match findIdxFrom it.lines (it.lineIndex + 1).toNat "M103" with
  | some j => some ((j : ℤ) - 2)
  | none => none

/-- Body of `isBeforeExtrusion`: scan forward counting linear moves until
an activate or deactivate command decides the answer. -/
def isBeforeExtrusionAux : List GLine → ℕ → Bool
  | [], _ => false
  | line :: rest, linearMoves =>
    let linearMoves := if line.command = "G1" then linearMoves + 1 else linearMoves
    if line.command = "M101" then decide (0 < linearMoves)
    else if line.command = "M103" then false
    else isBeforeExtrusionAux rest linearMoves

/-- Embeds `LineIteratorBackward.isBeforeExtrusion`. -/
def LineIterator.isBeforeExtrusion (it : LineIterator) : Bool :=
  isBeforeExtrusionAux (it.lines.drop (it.lineIndex + 1).toNat) 0

/-- Embeds `LineIteratorForward.getIndexJustAfterActivate`: scan
`xrange(lineIndex - 1, 0, -1)` — indices `lineIndex - 1` down to `1`,
index 0 excluded — for `M101`, returning the index just after it; `none`
models the raised `StopIteration` when no activate command is found. -/
def findCmdDown (lines : List GLine) (cmd : String) : ℕ → Option ℕ
  | 0 => none
  | i + 1 =>
    match lines[i + 1]? with
    | some l => if l.command = cmd then some (i + 1) else findCmdDown lines cmd i
    | none => findCmdDown lines cmd i

def getIndexJustAfterActivate (it : LineIterator) : Option ℤ :=
  match findCmdDown it.lines "M101" (it.lineIndex - 1).toNat with
  | some j => some ((j : ℤ) + 1)
  | none => none

/-- Result of one `getNext()` call: a returned line with the updated
cursor, the `StopIteration` signal, an uncaught error (out-of-range index
access), or fuel exhaustion (models a diverging `while`). -/
inductive NextResult where
  | line (l : GLine) (it : LineIterator)
  | exhausted
  | error
  | stuck

/-- Records `firstLineIndex` on the first visited index
(`if self.firstLineIndex == None: self.firstLineIndex = self.lineIndex`). -/
def markFirst (it : LineIterator) : LineIterator :=
  match it.firstLineIndex with
  | none => { it with firstLineIndex := some it.lineIndex }
  | some _ => it

/-- The `while self.lineIndex >= 0` loop of
`LineIteratorBackward.getNext`. -/
def backwardLoop : ℕ → LineIterator → NextResult
  | 0, _ => .stuck
  | fuel + 1, it =>
    if 0 ≤ it.lineIndex then
      if it.firstLineIndex = some it.lineIndex then .exhausted
      else
        let it := markFirst it
        match lineAt it.lines it.lineIndex with
        | none => .error
        | some line =>
          if line.command = "M103" then
            if it.isLoop then
              match getIndexBeforeNextDeactivate it with
              | some nextLineIndex => backwardLoop fuel { it with lineIndex := nextLineIndex }
              | none => .exhausted
            else .exhausted
          else if line.command = "G1" then
            if it.isBeforeExtrusion then
              if it.isLoop then
                match getIndexBeforeNextDeactivate it with
                | some nextLineIndex => backwardLoop fuel { it with lineIndex := nextLineIndex }
                | none => .exhausted
              else .exhausted
            else .line line { it with lineIndex := it.lineIndex - 1 }
          else backwardLoop fuel { it with lineIndex := it.lineIndex - 1 }
    else .exhausted

/-- Embeds `LineIteratorBackward.getNext`: the pre-loop wrap (loop cursors
below index 1 jump to two lines before the next deactivate), then the
descending scan; the post-loop `if self.isLoop: nextLineIndex = ...`
before the final `raise` is dead (the computed index is discarded), so
both post-loop paths signal `StopIteration`. -/
def backwardNext (fuel : ℕ) (it : LineIterator) : NextResult :=
  if it.lineIndex < 1 ∧ it.isLoop = true then
    match getIndexBeforeNextDeactivate it with
    | some j => backwardLoop fuel { it with lineIndex := j }
    | none => .exhausted
  else backwardLoop fuel it

/-- The `while self.lineIndex < len(self.lines)` loop of
`LineIteratorForward.getNext` (which is the whole of that method). -/
def forwardLoop : ℕ → LineIterator → NextResult
  | 0, _ => .stuck
  | fuel + 1, it =>
    if it.lineIndex < (it.lines.length : ℤ) then
      if it.firstLineIndex = some it.lineIndex then .exhausted
      else
        let it := markFirst it
        match lineAt it.lines it.lineIndex with
        | none => .error
        | some line =>
          if line.command = "M103" then
            if it.isLoop then
              match getIndexJustAfterActivate it with
              | some nextLineIndex => forwardLoop fuel { it with lineIndex := nextLineIndex }
              | none => .exhausted
            else .exhausted
          else
            let it := { it with lineIndex := it.lineIndex + 1 }
            if line.command = "G1" then .line line it
            else forwardLoop fuel it
    else .exhausted

def forwardNext (fuel : ℕ) (it : LineIterator) : NextResult := forwardLoop fuel it

/-- `getNext()` dispatched by cursor class. -/
def LineIterator.getNext (it : LineIterator) (fuel : ℕ) : NextResult :=
  match it.dir with
  | .forward => forwardNext fuel it
  | .backward => backwardNext fuel it

/-- `exhaustsWithinB fuel k it = true` iff repeatedly calling `getNext`
reaches the `Exhausted` signal after at most `k` returned lines — that
is, within at most `k + 1` calls. -/
def exhaustsWithinB (fuel : ℕ) : ℕ → LineIterator → Bool
  | 0, it =>
    match it.getNext fuel with
    | .exhausted => true
    | _ => false
  | k + 1, it =>
    match it.getNext fuel with
    | .exhausted => true
    | .line _ it' => exhaustsWithinB fuel k it'
    | _ => false

/-! ### C10: the forward wrap never finds an activate command at index 0 -/

/-- If no line at indices `1..k` has command `cmd`, the descending scan
finds nothing. -/
theorem findCmdDown_eq_none {lines : List GLine} {cmd : String} {k : ℕ}
    (h : ∀ j : ℕ, 1 ≤ j → j ≤ k → ∀ l, lines[j]? = some l → l.command ≠ cmd) :
    findCmdDown lines cmd k = none := by
  induction k with
  | zero => rfl
  | succ i ih =>
    have hrec := ih fun j h1 h2 => h j h1 (by omega)
    rw [findCmdDown]
    cases hl : lines[i + 1]? with
    | none => simpa using hrec
    | some l => simpa [h (i + 1) (by omega) le_rfl l hl] using hrec

/-- **C10** (confirmed).  The forward cursor's loop wrap searches for the
extruder-activate command only at indices strictly between 0 and the
current index; when no `M101` exists there (for instance when the layer's
only `M101` sits at index 0), the cursor at an `M103` line signals
`Exhausted` instead of wrapping. -/
theorem C10_forward_wrap_excludes_index_zero (it : LineIterator) (fuel : ℕ) (l : GLine)
    (hdir : it.dir = .forward) (hloop : it.isLoop = true)
    (hrange : 0 ≤ it.lineIndex ∧ it.lineIndex < (it.lines.length : ℤ))
    (hline : lineAt it.lines it.lineIndex = some l) (hcmd : l.command = "M103")
    (hnoact : ∀ j : ℕ, 1 ≤ j → (j : ℤ) < it.lineIndex →
      ∀ l', it.lines[j]? = some l' → l'.command ≠ "M101")
    (hfuel : 0 < fuel) :
    getIndexJustAfterActivate it = none ∧ it.getNext fuel = .exhausted := by
  have hfind : findCmdDown it.lines "M101" (it.lineIndex - 1).toNat = none := by
    apply findCmdDown_eq_none
    intro j h1 h2 l' hl'
    exact hnoact j h1 (by omega) l' hl'
  have hwrap : getIndexJustAfterActivate it = none := by
    rw [getIndexJustAfterActivate, hfind]
  refine ⟨hwrap, ?_⟩
  have hwrap' : getIndexJustAfterActivate (markFirst it) = none := by
    rw [getIndexJustAfterActivate, markFirst]
    cases it.firstLineIndex <;> simp only <;> rw [hfind]
  obtain ⟨fu, rfl⟩ : ∃ fu, fuel = fu + 1 := ⟨fuel - 1, by omega⟩
  rw [LineIterator.getNext, hdir]
  simp only [forwardNext, forwardLoop, if_pos hrange.2]
  by_cases hfirst : it.firstLineIndex = some it.lineIndex
  · rw [if_pos hfirst]
  · rw [if_neg hfirst]
    have hlineAt : lineAt (markFirst it).lines (markFirst it).lineIndex = some l := by
      rw [markFirst]; cases it.firstLineIndex <;> simpa using hline
    have hloop' : (markFirst it).isLoop = true := by
      rw [markFirst]; cases it.firstLineIndex <;> simpa using hloop
    rw [hlineAt]
    simp [if_pos hcmd, hloop', hwrap']

/-- Witness for C10: a two-line layer `[M101, M103]` with the loop cursor
sitting on the `M103`; its only activate command is at index 0, so the
call exhausts. -/
def m101Line : GLine := { raw := "M101", command := "M101" }
def m103Line : GLine := { raw := "M103", command := "M103" }

def c10Iter : LineIterator :=
  { dir := .forward, isLoop := true, lineIndex := 1, lines := [m101Line, m103Line] }

theorem C10_forward_wrap_excludes_index_zero_witness :
    getIndexJustAfterActivate c10Iter = none ∧ c10Iter.getNext 5 = .exhausted := by
  apply C10_forward_wrap_excludes_index_zero c10Iter 5 m103Line rfl rfl
  · exact ⟨by decide, by decide⟩
  · rfl
  · rfl
  · intro j h1 h2 l' hl'
    have : (1 : ℤ) ≤ (j : ℤ) := by exact_mod_cast h1
    have hj : c10Iter.lineIndex = 1 := rfl
    omega
  · decide

/-! ### C4 counterexample: a forward loop cursor started before the
activate index cycles forever -/

def cmtLine : GLine := { raw := "(<layer> 0.1 )", command := "(<layer>" }
def g1aLine : GLine := { raw := "G1 X1 Y0", command := "G1", x := some 1, y := some 0 }
def g1bLine : GLine := { raw := "G1 X1 Y1", command := "G1", x := some 1, y := some 1 }

/-- A layer holding a closed loop of N = 2 linear moves, with one comment
line before the activate command. -/
def c4Layer : List GLine := [cmtLine, m101Line, g1aLine, g1bLine, m103Line]

def c4Iter : LineIterator :=
  { dir := .forward, isLoop := true, lineIndex := 0, lines := c4Layer }

/-- **C4** (counterexample).  The claim says a loop cursor started at
*any* index of a layer holding a closed loop of N linear moves signals
`Exhausted` within at most N + 1 `next()` calls.  For the layer
`[comment, M101, G1, G1, M103]` (N = 2) the forward loop cursor started
at index 0 records index 0 as its first index, but the `M103` wrap jumps
to index 2 (just after the activate command) and the cursor then cycles
through indices 2..4 forever, never revisiting index 0: all of the first
N + 1 = 3 calls return lines, and no call ever exhausts. -/
theorem C4_forward_from_zero_does_not_exhaust :
    exhaustsWithinB 20 2 c4Iter = false := by decide

/-! ## The stretch vector computer -/

/-- Embeds `StretchFilter.getCrossLimitedStretch`.  The first line the
cross iterator yields is parsed into a point; the stretch is returned
unchanged when the point is within the one-third fraction, reduced to its
parallel component beyond the cross-limit distance, and linearly
cross-limited in between.  Reading the threshold attributes before
initialisation ever set them is an `AttributeError`. -/
noncomputable def getCrossLimitedStretch (self : StretchFilter) (fuel : ℕ)
    (crossLimitedStretch : ℂ) (crossLineIterator : LineIterator)
    (locationComplex : ℂ) : Except Unit ℂ :=
  match crossLineIterator.getNext fuel with
  | .exhausted => .ok crossLimitedStretch
  | .error => .error ()
  | .stuck => .error ()
  | .line line _ =>
    let pointComplex := (getLocationFromSplitLine self.oldLocation line).dropAxis
    let pointMinusLocation := locationComplex - pointComplex
    let pointMinusLocationLength := Complex.abs pointMinusLocation
    match self.crossLimitDistanceFraction, self.crossLimitDistance,
        self.crossLimitDistanceRemainder with
    | some crossLimitDistanceFraction, some crossLimitDistance, some crossLimitDistanceRemainder =>
      if pointMinusLocationLength ≤ crossLimitDistanceFraction then .ok crossLimitedStretch
      else
        let parallelNormal := pointMinusLocation / (pointMinusLocationLength : ℂ)
        let parallelStretch :=
          (getDotProduct parallelNormal crossLimitedStretch : ℂ) * parallelNormal
        if crossLimitDistance < pointMinusLocationLength then .ok parallelStretch
        else
          let crossNormal : ℂ := ⟨parallelNormal.im, -parallelNormal.re⟩
          let crossStretch :=
            (getDotProduct crossNormal crossLimitedStretch : ℂ) * crossNormal
          let crossPortion :=
            (crossLimitDistance - pointMinusLocationLength) / crossLimitDistanceRemainder
          .ok (parallelStretch + crossStretch * (crossPortion : ℂ))
    | _, _, _ => .error ()

/-- The `while 1` loop of `StretchFilter.getRelativeStretch`, carrying
`lastLocationComplex`, `oldTotalLength`, `pointComplex` and `totalLength`
through the walk. -/
noncomputable def getRelativeStretchAux (self : StretchFilter) (stretchFromDistance : ℝ)
    (locationComplex : ℂ) :
    ℕ → ℂ → ℝ → ℂ → ℝ → LineIterator → Except Unit ℂ
  | 0, _, _, _, _, _ => .error ()
  | fuel + 1, lastLocationComplex, oldTotalLength, pointComplex, totalLength, lineIterator =>
    match lineIterator.getNext (fuel + 1) with
    | .error => .error ()
    | .stuck => .error ()
    | .exhausted =>
      let locationMinusPoint := locationComplex - pointComplex
      let locationMinusPointLength := Complex.abs locationMinusPoint
      if 0 < locationMinusPointLength then
        .ok (locationMinusPoint / (locationMinusPointLength : ℂ))
      else .ok 0
    | .line line it' =>
      let pointComplex' := (getLocationFromSplitLine self.oldLocation line).dropAxis
      let locationMinusPoint := lastLocationComplex - pointComplex'
      let locationMinusPointLength := Complex.abs locationMinusPoint
      let totalLength' := totalLength + locationMinusPointLength
      if stretchFromDistance ≤ totalLength' then
        let distanceFromRatio := (stretchFromDistance - oldTotalLength) / locationMinusPointLength
        let totalPoint := (distanceFromRatio : ℂ) * pointComplex' +
          ((1 : ℝ) - distanceFromRatio : ℝ) * lastLocationComplex
        .ok ((locationComplex - totalPoint) / (stretchFromDistance : ℂ))
      else
        getRelativeStretchAux self stretchFromDistance locationComplex fuel
          pointComplex' totalLength' pointComplex' totalLength' it'

/-- Embeds `StretchFilter.getRelativeStretch`: the tangent-estimate walk.
Reading `self.stretchFromDistance` before initialisation set it is an
`AttributeError`. -/
noncomputable def getRelativeStretch (self : StretchFilter) (fuel : ℕ)
    (locationComplex : ℂ) (lineIterator : LineIterator) : Except Unit ℂ :=
  match self.stretchFromDistance with
  | none => .error ()
  | some stretchFromDistance =>
    getRelativeStretchAux self stretchFromDistance locationComplex fuel
      locationComplex 0 locationComplex 0 lineIterator

/-- Embeds `StretchFilter.getStretchedLineFromIndexLocation`: two pairs of
fresh cursors, relative stretch forward + backward, damping by 0.8, two
cross-limit passes, unit clamp, scale by the active feature's maximum
stretch, and emission of the stretched move at the original z with the
carried feed rate. -/
noncomputable def getStretchedLineFromIndexLocation (self : StretchFilter) (fuel : ℕ)
    (indexPreviousStart indexNextStart : ℤ) (location : Vector3)
    (current_layer : List GLine) : Except Unit OutLine := do
  let crossIteratorForward : LineIterator :=
    { dir := .forward, isLoop := self.isLoop, lineIndex := indexNextStart,
      lines := current_layer }
  let crossIteratorBackward : LineIterator :=
    { dir := .backward, isLoop := self.isLoop, lineIndex := indexPreviousStart,
      lines := current_layer }
  let iteratorForward : LineIterator :=
    { dir := .forward, isLoop := self.isLoop, lineIndex := indexNextStart,
      lines := current_layer }
  let iteratorBackward : LineIterator :=
    { dir := .backward, isLoop := self.isLoop, lineIndex := indexPreviousStart,
      lines := current_layer }
  let locationComplex := location.dropAxis
  let rsForward ← getRelativeStretch self fuel locationComplex iteratorForward
  let rsBackward ← getRelativeStretch self fuel locationComplex iteratorBackward
  let relativeStretch := (rsForward + rsBackward) * ((0.8 : ℝ) : ℂ)
  let relativeStretch ← getCrossLimitedStretch self fuel relativeStretch
    crossIteratorForward locationComplex
  let relativeStretch ← getCrossLimitedStretch self fuel relativeStretch
    crossIteratorBackward locationComplex
  let relativeStretchLength := Complex.abs relativeStretch
  let relativeStretch :=
    if 1 < relativeStretchLength then relativeStretch / (relativeStretchLength : ℂ)
    else relativeStretch
  let absoluteStretch := relativeStretch * ((self.thread_maximum_absolute_stretch : ℝ) : ℂ)
  let stretchedPoint := location.dropAxis + absoluteStretch
  return .move self.feedRateMinute stretchedPoint location.z

/-- Embeds `StretchFilter.isJustBeforeExtrusion`: scan the rest of the
layer; a linear move or deactivate first means no, an activate first means
yes. -/
def isJustBeforeExtrusionAux : List GLine → Bool
  | [] => false
  | line :: rest =>
    if line.command = "G1" ∨ line.command = "M103" then false
    else if line.command = "M101" then true
    else isJustBeforeExtrusionAux rest

def isJustBeforeExtrusion (current_layer : List GLine) (line_number_in_layer : ℕ) : Bool :=
  isJustBeforeExtrusionAux (current_layer.drop (line_number_in_layer + 1))

/-- Embeds `StretchFilter.getStretchedLine`: resolve the location, carry
the feed rate (`self.feedRateMinute = line.f or self.feedRateMinute`,
where a specified `F0` is falsy in Python and therefore does *not*
update), store the location, and stretch when the extruder is active (or
the move is just before extrusion) and the feature's maximum stretch is
positive; otherwise pass the raw line through. -/
noncomputable def getStretchedLine (self : StretchFilter) (fuel : ℕ) (line : GLine)
    (current_layer : List GLine) (line_number_in_layer : ℕ) :
    Except Unit (StretchFilter × OutLine) :=
  let location := getLocationFromSplitLine self.oldLocation line
  let feedRateMinute :=
    match line.f with
    | some f => if f = 0 then self.feedRateMinute else f
    | none => self.feedRateMinute
  let self := { self with feedRateMinute := feedRateMinute, oldLocation := some location }
  if self.extruderActive = true ∧ 0 < self.thread_maximum_absolute_stretch then do
    let out ← getStretchedLineFromIndexLocation self fuel
      ((line_number_in_layer : ℤ) - 1) ((line_number_in_layer : ℤ) + 1) location current_layer
    return (self, out)
  else if isJustBeforeExtrusion current_layer line_number_in_layer = true ∧
      0 < self.thread_maximum_absolute_stretch then do
    let out ← getStretchedLineFromIndexLocation self fuel
      ((line_number_in_layer : ℤ) - 1) ((line_number_in_layer : ℤ) + 1) location current_layer
    return (self, out)
  else .ok (self, .raw line.raw)

/-! ## Helper lemmas -/

theorem bind_eq_ok {α β : Type} {x : Except Unit α} {f : α → Except Unit β} {b : β}
    (h : x >>= f = .ok b) : ∃ a, x = .ok a ∧ f a = .ok b := by
  cases x with
  | error e => exact absurd h (by simp [Bind.bind, Except.bind])
  | ok a => exact ⟨a, rfl, by simpa [Bind.bind, Except.bind] using h⟩

theorem cAbs_mk (a b : ℝ) : Complex.abs ⟨a, b⟩ = Real.sqrt (a ^ 2 + b ^ 2) := by
  rw [Complex.abs_apply, Complex.normSq_mk]
  ring_nf

/-- The unit clamp of `getStretchedLineFromIndexLocation` leaves a vector
of magnitude at most 1. -/
theorem clamped_length_le_one (v : ℂ) :
    Complex.abs (if 1 < Complex.abs v then v / ((Complex.abs v : ℝ) : ℂ) else v) ≤ 1 := by
  split_ifs with h
  · have h0 : (0 : ℝ) < Complex.abs v := lt_trans one_pos h
    rw [map_div₀, Complex.abs_ofReal, abs_of_pos h0]
    exact le_of_eq (div_self (ne_of_gt h0))
  · exact le_of_not_lt h

/-! ### C3: the stretched point stays within the feature's maximum stretch -/

/-- **C3** (confirmed).  Whenever `getStretchedLineFromIndexLocation`
emits a stretched move, the emitted XY point is within the active
feature's maximum absolute stretch of the original XY point: the relative
stretch is clamped to unit length before being scaled by that maximum. -/
theorem C3_stretched_point_within_max_stretch
    (self : StretchFilter) (fuel : ℕ) (iPrev iNext : ℤ) (location : Vector3)
    (layer : List GLine) (out : OutLine)
    (hrun : getStretchedLineFromIndexLocation self fuel iPrev iNext location layer = .ok out)
    (hm : 0 ≤ self.thread_maximum_absolute_stretch) :
    ∀ fr p z, out = .move fr p z →
      Complex.abs (p - location.dropAxis) ≤ self.thread_maximum_absolute_stretch := by
  intro fr p z hout
  simp only [getStretchedLineFromIndexLocation] at hrun
  obtain ⟨rsF, h1, hrun⟩ := bind_eq_ok hrun
  obtain ⟨rsB, h2, hrun⟩ := bind_eq_ok hrun
  obtain ⟨cl1, h3, hrun⟩ := bind_eq_ok hrun
  obtain ⟨cl2, h4, hrun⟩ := bind_eq_ok hrun
  simp only [pure, Except.pure, Except.ok.injEq] at hrun
  subst hrun
  obtain ⟨-, hp, -⟩ := OutLine.move.inj hout.symm
  subst hp
  rw [add_sub_cancel_left, map_mul, Complex.abs_ofReal, abs_of_nonneg hm]
  calc Complex.abs (if 1 < Complex.abs cl2 then cl2 / ((Complex.abs cl2 : ℝ) : ℂ) else cl2) *
        self.thread_maximum_absolute_stretch
      ≤ 1 * self.thread_maximum_absolute_stretch :=
        mul_le_mul_of_nonneg_right (clamped_length_le_one cl2) hm
    _ = self.thread_maximum_absolute_stretch := one_mul _

/-- A state for the C3 witness: initialised lookahead, unit maximum
stretch, no location yet. -/
noncomputable def stW : StretchFilter :=
  { stretchFromDistance := some 1, thread_maximum_absolute_stretch := 1 }

noncomputable def locW : Vector3 := { x := 1, y := 2, z := 3 }

/-- On the empty layer every cursor exhausts at once, the relative stretch
is zero, and the move is emitted at the original point. -/
theorem c3_run :
    getStretchedLineFromIndexLocation stW 5 (-1) 1 locW [] =
      .ok (.move 959 locW.dropAxis locW.z) := by
  have hF : LineIterator.getNext
      { dir := .forward, isLoop := stW.isLoop, lineIndex := 1, lines := [] } 5 =
      .exhausted := rfl
  have hB : LineIterator.getNext
      { dir := .backward, isLoop := stW.isLoop, lineIndex := -1, lines := [] } 5 =
      .exhausted := rfl
  have hrs : ∀ it : LineIterator, it.getNext 5 = .exhausted →
      getRelativeStretch stW 5 locW.dropAxis it = .ok 0 := by
    intro it hit
    show getRelativeStretchAux stW 1 locW.dropAxis 5 locW.dropAxis 0 locW.dropAxis 0 it = .ok 0
    rw [show (5 : ℕ) = 4 + 1 from rfl, getRelativeStretchAux, hit]
    simp
  have hcl : ∀ v : ℂ, ∀ it : LineIterator, it.getNext 5 = .exhausted →
      getCrossLimitedStretch stW 5 v it locW.dropAxis = .ok v := by
    intro v it hit
    rw [getCrossLimitedStretch, hit]
  simp only [getStretchedLineFromIndexLocation, hrs _ hF, hrs _ hB, hcl _ _ hF, hcl _ _ hB,
    Bind.bind, Except.bind]
  norm_num
  simp only [pure, Except.pure, Except.ok.injEq, OutLine.move.injEq]
  norm_num [stW]

theorem C3_stretched_point_within_max_stretch_witness :
    Complex.abs (locW.dropAxis - locW.dropAxis) ≤ stW.thread_maximum_absolute_stretch :=
  C3_stretched_point_within_max_stretch stW 5 (-1) 1 locW [] _ c3_run
    (by norm_num [stW]) 959 locW.dropAxis locW.z rfl

/-! ### C5: the tangent estimate -/

/-- Step lemma: one iteration of the tangent-estimate walk on a returned
line. -/
theorem relativeStretchAux_line (self : StretchFilter) (sfd : ℝ) (loc : ℂ) (fuel : ℕ)
    (last : ℂ) (oldT : ℝ) (pt : ℂ) (total : ℝ) (it : LineIterator) (l : GLine)
    (it' : LineIterator) (p' : ℂ) (L : ℝ)
    (hnext : it.getNext (fuel + 1) = .line l it')
    (hp : (getLocationFromSplitLine self.oldLocation l).dropAxis = p')
    (hL : Complex.abs (last - p') = L) :
    getRelativeStretchAux self sfd loc (fuel + 1) last oldT pt total it =
      if sfd ≤ total + L then
        .ok ((loc - ((((sfd - oldT) / L : ℝ) : ℂ) * p' +
          (((1 : ℝ) - (sfd - oldT) / L : ℝ) : ℂ) * last)) / ((sfd : ℝ) : ℂ))
      else getRelativeStretchAux self sfd loc fuel p' (total + L) p' (total + L) it' := by
  rw [getRelativeStretchAux, hnext]
  dsimp only
  rw [hp, hL]

/-- Step lemma: the exhausted fallback of the tangent-estimate walk. -/
theorem relativeStretchAux_exh (self : StretchFilter) (sfd : ℝ) (loc : ℂ) (fuel : ℕ)
    (last : ℂ) (oldT : ℝ) (pt : ℂ) (total : ℝ) (it : LineIterator)
    (hnext : it.getNext (fuel + 1) = .exhausted) :
    getRelativeStretchAux self sfd loc (fuel + 1) last oldT pt total it =
      if 0 < Complex.abs (loc - pt) then
        .ok ((loc - pt) / ((Complex.abs (loc - pt) : ℝ) : ℂ))
      else .ok 0 := by
  rw [getRelativeStretchAux, hnext]

noncomputable def st5 : StretchFilter := { stretchFromDistance := some 2 }

def c5Iter : LineIterator :=
  { dir := .forward, isLoop := false, lineIndex := 0, lines := [g1aLine, g1bLine] }

def c5Iter1 : LineIterator :=
  { dir := .forward, isLoop := false, firstLineIndex := some 0, lineIndex := 0 + 1,
    lines := [g1aLine, g1bLine] }

def c5Iter2 : LineIterator :=
  { dir := .forward, isLoop := false, firstLineIndex := some 0, lineIndex := 0 + 1 + 1,
    lines := [g1aLine, g1bLine] }

/-- Running the tangent-estimate walk from the origin over the two moves
`(1,0)`, `(1,1)` with lookahead 2: the accumulated distance reaches 2
exactly at `(1,1)`, and the returned estimate is `(-1/2, -1/2)`. -/
theorem c5_run (fu : ℕ) :
    getRelativeStretch st5 (fu + 1 + 1) 0 c5Iter = .ok ⟨-(1 / 2), -(1 / 2)⟩ := by
  have hn1 : c5Iter.getNext (fu + 1 + 1) = .line g1aLine c5Iter1 := rfl
  have hn2 : c5Iter1.getNext (fu + 1) = .line g1bLine c5Iter2 := rfl
  have hmk1 : ((0 : ℂ) - ⟨1, 0⟩) = ⟨-1, 0⟩ := by
    apply Complex.ext <;> simp
  have hmk2 : ((⟨1, 0⟩ : ℂ) - ⟨1, 1⟩) = ⟨0, -1⟩ := by
    apply Complex.ext <;> simp
  have hp1 : (getLocationFromSplitLine st5.oldLocation g1aLine).dropAxis = (⟨1, 0⟩ : ℂ) := by
    apply Complex.ext <;> simp [getLocationFromSplitLine, g1aLine, st5, Vector3.dropAxis]
  have hp2 : (getLocationFromSplitLine st5.oldLocation g1bLine).dropAxis = (⟨1, 1⟩ : ℂ) := by
    apply Complex.ext <;> simp [getLocationFromSplitLine, g1bLine, st5, Vector3.dropAxis]
  have hL1 : Complex.abs ((0 : ℂ) - ⟨1, 0⟩) = 1 := by
    rw [hmk1, cAbs_mk]; norm_num
  have hL2 : Complex.abs ((⟨1, 0⟩ : ℂ) - ⟨1, 1⟩) = 1 := by
    rw [hmk2, cAbs_mk]; norm_num
  show getRelativeStretchAux st5 2 0 (fu + 1 + 1) 0 0 0 0 c5Iter = _
  rw [relativeStretchAux_line st5 2 0 (fu + 1) 0 0 0 0 c5Iter g1aLine c5Iter1 ⟨1, 0⟩ 1
    hn1 hp1 hL1]
  rw [if_neg (by norm_num)]
  rw [relativeStretchAux_line st5 2 0 fu ⟨1, 0⟩ (0 + 1) ⟨1, 0⟩ (0 + 1) c5Iter1 g1bLine c5Iter2
    ⟨1, 1⟩ 1 hn2 hp2 hL2]
  rw [if_pos (by norm_num)]
  congr 1
  have h2 : (((2 : ℝ) : ℂ)) ≠ 0 := by
    simp
  rw [div_eq_iff h2]
  apply Complex.ext <;>
    simp [Complex.mul_re, Complex.mul_im, Complex.add_re, Complex.add_im,
      Complex.sub_re, Complex.sub_im, Complex.ofReal_re, Complex.ofReal_im] <;>
    try norm_num

/-- **C5** (counterexample).  The claim says that when the walk's
accumulated distance reaches the lookahead distance, the estimate returned
is a *unit* vector from the interpolated point toward the current
location.  With lookahead 2, walking from the origin over the moves
`(1,0)` then `(1,1)`, the accumulated distance reaches 2 exactly at
`(1,1)`; the code returns `(location - interpolatedPoint) / lookahead =
(-1/2, -1/2)`, whose magnitude is `√2/2 ≠ 1` (the code divides by the
lookahead distance instead of normalizing). -/
theorem C5_tangent_estimate_not_unit :
    getRelativeStretch st5 2 0 c5Iter = .ok ⟨-(1 / 2), -(1 / 2)⟩ ∧
    Complex.abs (⟨-(1 / 2), -(1 / 2)⟩ : ℂ) ≠ 1 := by
  constructor
  · simpa using c5_run 0
  · intro habs
    have h1 : Complex.normSq ⟨-(1 / 2), -(1 / 2)⟩ = 1 / 2 := by
      rw [Complex.normSq_mk]; norm_num
    have h2 := Complex.sq_abs (⟨-(1 / 2), -(1 / 2)⟩ : ℂ)
    rw [habs, h1] at h2
    norm_num at h2

/-- Invariant induction for the amended C5: every estimate the walk can
return has magnitude at most 1.  The invariants: the straight-line
distance from the location to the last visited point is at most the
accumulated walk length, which is below the lookahead distance. -/
theorem relativeStretchAux_abs_le_one (self : StretchFilter) (sfd : ℝ) (loc : ℂ)
    (hsfd : 0 < sfd) :
    ∀ fuel : ℕ, ∀ (last : ℂ) (oldT : ℝ) (pt : ℂ) (total : ℝ) (it : LineIterator) (r : ℂ),
      Complex.abs (loc - last) ≤ oldT → oldT = total → total < sfd →
      getRelativeStretchAux self sfd loc fuel last oldT pt total it = .ok r →
      Complex.abs r ≤ 1 := by
  intro fuel
  induction fuel with
  | zero =>
    intro last oldT pt total it r _ _ _ hrun
    exact absurd hrun (by rw [getRelativeStretchAux]; simp)
  | succ fu ih =>
    intro last oldT pt total it r h1 h2 h3 hrun
    cases hnext : it.getNext (fu + 1) with
    | error =>
      rw [getRelativeStretchAux, hnext] at hrun
      exact absurd hrun (by simp)
    | stuck =>
      rw [getRelativeStretchAux, hnext] at hrun
      exact absurd hrun (by simp)
    | exhausted =>
      rw [relativeStretchAux_exh self sfd loc fu last oldT pt total it hnext] at hrun
      by_cases hpos : 0 < Complex.abs (loc - pt)
      · rw [if_pos hpos, Except.ok.injEq] at hrun
        subst hrun
        rw [map_div₀, Complex.abs_ofReal, abs_of_pos hpos]
        exact le_of_eq (div_self (ne_of_gt hpos))
      · rw [if_neg hpos, Except.ok.injEq] at hrun
        subst hrun
        simp
    | line l it' =>
      rw [relativeStretchAux_line self sfd loc fu last oldT pt total it l it'
        ((getLocationFromSplitLine self.oldLocation l).dropAxis)
        (Complex.abs (last - (getLocationFromSplitLine self.oldLocation l).dropAxis))
        hnext rfl rfl] at hrun
      set p' := (getLocationFromSplitLine self.oldLocation l).dropAxis with hp'
      set L := Complex.abs (last - p') with hLdef
      by_cases htot : sfd ≤ total + L
      · rw [if_pos htot, Except.ok.injEq] at hrun
        subst hrun
        have hLnn : 0 ≤ L := by rw [hLdef]; exact AbsoluteValue.nonneg _ _
        have hLpos : 0 < L := by
          by_contra hc
          have : L = 0 := le_antisymm (le_of_not_lt hc) hLnn
          rw [this, add_zero] at htot
          linarith
        have hnum : 0 ≤ sfd - oldT := by rw [h2]; linarith
        have hratio : 0 ≤ (sfd - oldT) / L := div_nonneg hnum hLnn
        have htp : loc - ((((sfd - oldT) / L : ℝ) : ℂ) * p' +
            (((1 : ℝ) - (sfd - oldT) / L : ℝ) : ℂ) * last) =
            (loc - last) + (((sfd - oldT) / L : ℝ) : ℂ) * (last - p') := by
          push_cast
          ring
        have hb : Complex.abs (loc - ((((sfd - oldT) / L : ℝ) : ℂ) * p' +
            (((1 : ℝ) - (sfd - oldT) / L : ℝ) : ℂ) * last)) ≤ sfd := by
          rw [htp]
          calc Complex.abs ((loc - last) + (((sfd - oldT) / L : ℝ) : ℂ) * (last - p'))
              ≤ Complex.abs (loc - last) +
                Complex.abs ((((sfd - oldT) / L : ℝ) : ℂ) * (last - p')) :=
                AbsoluteValue.add_le _ _ _
            _ = Complex.abs (loc - last) + (sfd - oldT) / L * L := by
                rw [map_mul, Complex.abs_ofReal, abs_of_nonneg hratio, ← hLdef]
            _ = Complex.abs (loc - last) + (sfd - oldT) := by
                rw [div_mul_cancel₀ _ (ne_of_gt hLpos)]
            _ ≤ oldT + (sfd - oldT) := add_le_add_right h1 _
            _ = sfd := by ring
        rw [map_div₀, Complex.abs_ofReal, abs_of_pos hsfd, div_le_one hsfd]
        exact hb
      · rw [if_neg htot] at hrun
        have h1' : Complex.abs (loc - p') ≤ total + L := by
          calc Complex.abs (loc - p') ≤ Complex.abs (loc - last) + Complex.abs (last - p') :=
            AbsoluteValue.sub_le _ _ _ _
          _ ≤ total + L := by
            rw [← hLdef, ← h2]
            exact add_le_add_right h1 _
        exact ih p' (total + L) p' (total + L) it' r h1' rfl (lt_of_not_le htot) hrun

/-- **C5** (amended, proved).  The estimate the tangent walk returns is
the vector from the interpolated (or last visited) point toward the
current location scaled by the reciprocal of the lookahead distance (or
normalized, in the exhausted fallback): its magnitude is at most 1 — not
exactly 1 in general. -/
theorem C5_tangent_estimate_magnitude_le_one (self : StretchFilter) (fuel : ℕ)
    (loc : ℂ) (it : LineIterator) (r : ℂ) (sfd : ℝ)
    (hs : self.stretchFromDistance = some sfd) (hsfd : 0 < sfd)
    (hrun : getRelativeStretch self fuel loc it = .ok r) :
    Complex.abs r ≤ 1 := by
  rw [getRelativeStretch, hs] at hrun
  exact relativeStretchAux_abs_le_one self sfd loc hsfd fuel loc 0 loc 0 it r
    (by rw [sub_self, map_zero]) rfl hsfd hrun

theorem C5_tangent_estimate_magnitude_le_one_witness :
    Complex.abs (⟨-(1 / 2), -(1 / 2)⟩ : ℂ) ≤ 1 :=
  C5_tangent_estimate_magnitude_le_one st5 2 0 c5Iter _ 2 rfl (by norm_num)
    (by simpa using c5_run 0)

/-! ### C2: cross-limiting between the two thresholds -/

/-- Characterization of `getCrossLimitedStretch` in the middle regime:
the first point the cross iterator yields sits at distance `d` from the
location along the unit direction `u`, with `frac < d ≤ D`.  The result
keeps the parallel component and scales the perpendicular component by
`(D - d) / R`. -/
theorem crossLimitedStretch_mid (self : StretchFilter) (fuel : ℕ) (s : ℂ)
    (it : LineIterator) (loc : ℂ) (l : GLine) (it' : LineIterator)
    (frac D R d : ℝ) (u : ℂ)
    (hfrac : self.crossLimitDistanceFraction = some frac)
    (hD : self.crossLimitDistance = some D)
    (hR : self.crossLimitDistanceRemainder = some R)
    (hnext : it.getNext fuel = .line l it')
    (hpt : (getLocationFromSplitLine self.oldLocation l).dropAxis = loc - (d : ℂ) * u)
    (hu : Complex.abs u = 1) (hd0 : 0 < d) (hd1 : frac < d) (hd2 : d ≤ D) :
    getCrossLimitedStretch self fuel s it loc =
      .ok ((getDotProduct u s : ℂ) * u +
        ((getDotProduct ⟨u.im, -u.re⟩ s : ℂ) * ⟨u.im, -u.re⟩) * (((D - d) / R : ℝ) : ℂ)) := by
  have hpml : loc - (loc - (d : ℂ) * u) = (d : ℂ) * u := by ring
  have hlen : Complex.abs ((d : ℂ) * u) = d := by
    rw [map_mul, Complex.abs_ofReal, hu, mul_one, abs_of_pos hd0]
  have hnorm : ((d : ℂ) * u) / ((d : ℝ) : ℂ) = u := by
    rw [mul_comm, mul_div_assoc, div_self (by exact_mod_cast ne_of_gt hd0), mul_one]
  rw [getCrossLimitedStretch, hnext]
  dsimp only
  rw [hpt, hfrac, hD, hR]
  dsimp only
  rw [hpml, hlen, if_neg (not_le.mpr hd1), hnorm, if_neg (not_lt.mpr hd2)]

/-- The perpendicular component retained by the middle-regime formula is
the full perpendicular component scaled by the ramp factor. -/
theorem dot_cross_of_ramp (u s : ℂ) (t : ℝ)
    (hn : u.re * u.re + u.im * u.im = 1) :
    getDotProduct ⟨u.im, -u.re⟩
      ((getDotProduct u s : ℂ) * u +
        ((getDotProduct ⟨u.im, -u.re⟩ s : ℂ) * ⟨u.im, -u.re⟩) * ((t : ℝ) : ℂ)) =
      t * getDotProduct ⟨u.im, -u.re⟩ s := by
  simp only [getDotProduct, Complex.add_re, Complex.add_im, Complex.mul_re, Complex.mul_im,
    Complex.ofReal_re, Complex.ofReal_im]
  linear_combination (t * (u.im * s.re - u.re * s.im)) * hn

/-- **C2** (amended, proved).  Between the one-third-fraction threshold
and the cross-limit distance the retained perpendicular component equals
the full perpendicular component times `(D - d) / R` — proportional to
how far *below the cross-limit distance* the point lies, not to how far
past the one-third threshold.  Consequently, as the neighbouring point's
distance decreases from the cross-limit distance toward the one-third
threshold, the retained perpendicular component *increases* monotonically
from zero toward the full component; it does not decrease to zero. -/
theorem C2_cross_limited_perpendicular_ramp
    (self : StretchFilter) (fuel : ℕ) (s loc u : ℂ)
    (it₁ it₂ : LineIterator) (l₁ l₂ : GLine) (it₁' it₂' : LineIterator)
    (frac D R d₁ d₂ : ℝ) (r₁ r₂ : ℂ)
    (hfrac : self.crossLimitDistanceFraction = some frac)
    (hD : self.crossLimitDistance = some D)
    (hR : self.crossLimitDistanceRemainder = some R)
    (hnext₁ : it₁.getNext fuel = .line l₁ it₁')
    (hpt₁ : (getLocationFromSplitLine self.oldLocation l₁).dropAxis = loc - (d₁ : ℂ) * u)
    (hnext₂ : it₂.getNext fuel = .line l₂ it₂')
    (hpt₂ : (getLocationFromSplitLine self.oldLocation l₂).dropAxis = loc - (d₂ : ℂ) * u)
    (hu : Complex.abs u = 1)
    (hRpos : 0 < R) (hfrac0 : 0 ≤ frac)
    (hd₂ : frac < d₂) (hd21 : d₂ < d₁) (hd₁ : d₁ ≤ D)
    (hr₁ : getCrossLimitedStretch self fuel s it₁ loc = .ok r₁)
    (hr₂ : getCrossLimitedStretch self fuel s it₂ loc = .ok r₂) :
    getDotProduct ⟨u.im, -u.re⟩ r₁ = ((D - d₁) / R) * getDotProduct ⟨u.im, -u.re⟩ s ∧
    getDotProduct ⟨u.im, -u.re⟩ r₂ = ((D - d₂) / R) * getDotProduct ⟨u.im, -u.re⟩ s ∧
    |getDotProduct ⟨u.im, -u.re⟩ r₁| ≤ |getDotProduct ⟨u.im, -u.re⟩ r₂| := by
  have hn : u.re * u.re + u.im * u.im = 1 := by
    have h := Complex.sq_abs u
    rw [hu, Complex.normSq_apply] at h
    linarith [h]
  have hv₁ := crossLimitedStretch_mid self fuel s it₁ loc l₁ it₁' frac D R d₁ u
    hfrac hD hR hnext₁ hpt₁ hu (by linarith) (by linarith) hd₁
  have hv₂ := crossLimitedStretch_mid self fuel s it₂ loc l₂ it₂' frac D R d₂ u
    hfrac hD hR hnext₂ hpt₂ hu (by linarith) hd₂ (by linarith)
  rw [hv₁, Except.ok.injEq] at hr₁
  rw [hv₂, Except.ok.injEq] at hr₂
  subst hr₁
  subst hr₂
  refine ⟨dot_cross_of_ramp u s _ hn, dot_cross_of_ramp u s _ hn, ?_⟩
  rw [dot_cross_of_ramp u s _ hn, dot_cross_of_ramp u s _ hn, abs_mul, abs_mul]
  have h₁ : |(D - d₁) / R| = (D - d₁) / R :=
    abs_of_nonneg (div_nonneg (by linarith) hRpos.le)
  have h₂ : |(D - d₂) / R| = (D - d₂) / R :=
    abs_of_nonneg (div_nonneg (by linarith) hRpos.le)
  rw [h₁, h₂]
  exact mul_le_mul_of_nonneg_right ((div_le_div_iff_of_pos_right hRpos).mpr (by linarith))
    (abs_nonneg _)

/-- A filter state with the thresholds exactly as initialisation computes
them from the default edge width 0.4: cross-limit distance 2, one-third
fraction 0.666666666, remainder 1.333333334. -/
noncomputable def st2 : StretchFilter :=
  { crossLimitDistance := some (0.4 * 5.0),
    crossLimitDistanceFraction := some (0.333333333 * (0.4 * 5.0)),
    crossLimitDistanceRemainder := some (0.4 * 5.0 - 0.333333333 * (0.4 * 5.0)) }

noncomputable def c2LineFar : GLine :=
  { raw := "G1 X-1.5 Y0", command := "G1", x := some (-1.5), y := some 0 }

noncomputable def c2LineNear : GLine :=
  { raw := "G1 X-1 Y0", command := "G1", x := some (-1), y := some 0 }

noncomputable def c2IterFar : LineIterator :=
  { dir := .forward, isLoop := false, lineIndex := 0, lines := [c2LineFar] }

noncomputable def c2IterFar1 : LineIterator :=
  { dir := .forward, isLoop := false, firstLineIndex := some 0, lineIndex := 0 + 1,
    lines := [c2LineFar] }

noncomputable def c2IterNear : LineIterator :=
  { dir := .forward, isLoop := false, lineIndex := 0, lines := [c2LineNear] }

noncomputable def c2IterNear1 : LineIterator :=
  { dir := .forward, isLoop := false, firstLineIndex := some 0, lineIndex := 0 + 1,
    lines := [c2LineNear] }

/-- The middle-regime value of the cross-limited stretch of `Complex.I`
against a neighbour at distance `d` along direction `1`. -/
noncomputable def c2r (d : ℝ) : ℂ :=
  (getDotProduct 1 Complex.I : ℂ) * 1 +
    ((getDotProduct ⟨(1 : ℂ).im, -(1 : ℂ).re⟩ Complex.I : ℂ) * ⟨(1 : ℂ).im, -(1 : ℂ).re⟩) *
      (((0.4 * 5.0 - d) / (0.4 * 5.0 - 0.333333333 * (0.4 * 5.0)) : ℝ) : ℂ)

theorem c2_nextFar : c2IterFar.getNext 5 = .line c2LineFar c2IterFar1 := rfl

theorem c2_nextNear : c2IterNear.getNext 5 = .line c2LineNear c2IterNear1 := rfl

theorem c2_ptFar : (getLocationFromSplitLine st2.oldLocation c2LineFar).dropAxis
    = 0 - ((1.5 : ℝ) : ℂ) * 1 := by
  apply Complex.ext <;>
    simp [getLocationFromSplitLine, c2LineFar, st2, Vector3.dropAxis]

theorem c2_ptNear : (getLocationFromSplitLine st2.oldLocation c2LineNear).dropAxis
    = 0 - ((1 : ℝ) : ℂ) * 1 := by
  apply Complex.ext <;>
    simp [getLocationFromSplitLine, c2LineNear, st2, Vector3.dropAxis]

theorem c2_runFar : getCrossLimitedStretch st2 5 Complex.I c2IterFar 0 = .ok (c2r 1.5) :=
  crossLimitedStretch_mid st2 5 Complex.I c2IterFar 0 c2LineFar c2IterFar1
    (0.333333333 * (0.4 * 5.0)) (0.4 * 5.0) (0.4 * 5.0 - 0.333333333 * (0.4 * 5.0)) 1.5 1
    rfl rfl rfl c2_nextFar c2_ptFar (map_one _) (by norm_num) (by norm_num) (by norm_num)

theorem c2_runNear : getCrossLimitedStretch st2 5 Complex.I c2IterNear 0 = .ok (c2r 1) :=
  crossLimitedStretch_mid st2 5 Complex.I c2IterNear 0 c2LineNear c2IterNear1
    (0.333333333 * (0.4 * 5.0)) (0.4 * 5.0) (0.4 * 5.0 - 0.333333333 * (0.4 * 5.0)) 1 1
    rfl rfl rfl c2_nextNear c2_ptNear (map_one _) (by norm_num) (by norm_num) (by norm_num)

theorem c2_hn : (1 : ℂ).re * (1 : ℂ).re + (1 : ℂ).im * (1 : ℂ).im = 1 := by
  norm_num [Complex.one_re, Complex.one_im]

theorem c2_dotI : getDotProduct ⟨(1 : ℂ).im, -(1 : ℂ).re⟩ Complex.I = -1 := by
  simp [getDotProduct, Complex.one_re, Complex.one_im, Complex.I_re, Complex.I_im]

/-- **C2** (counterexample).  With the thresholds of the default edge
width (cross-limit distance 2, one-third fraction 0.666666666), a stretch
`I`, a location at the origin and neighbouring points at distances 1.5 and
1 along the positive x-axis — both strictly between the two thresholds —
the retained perpendicular component at the *nearer* point is strictly
*larger*: the claim that it decreases monotonically to zero as the
distance decreases toward the one-third threshold is false. -/
theorem C2_perpendicular_not_decreasing :
    getCrossLimitedStretch st2 5 Complex.I c2IterFar 0 = .ok (c2r 1.5) ∧
    getCrossLimitedStretch st2 5 Complex.I c2IterNear 0 = .ok (c2r 1) ∧
    0.333333333 * (0.4 * 5.0) < (1 : ℝ) ∧ (1 : ℝ) < (1.5 : ℝ) ∧ (1.5 : ℝ) < 0.4 * 5.0 ∧
    |getDotProduct ⟨(1 : ℂ).im, -(1 : ℂ).re⟩ (c2r 1.5)| <
      |getDotProduct ⟨(1 : ℂ).im, -(1 : ℂ).re⟩ (c2r 1)| := by
  refine ⟨c2_runFar, c2_runNear, by norm_num, by norm_num, by norm_num, ?_⟩
  rw [c2r, c2r, dot_cross_of_ramp 1 Complex.I _ c2_hn, dot_cross_of_ramp 1 Complex.I _ c2_hn,
    c2_dotI]
  rw [abs_mul, abs_mul, abs_neg, abs_one, mul_one, mul_one,
    abs_of_pos (by norm_num), abs_of_pos (by norm_num)]
  norm_num

theorem C2_cross_limited_perpendicular_ramp_witness :
    getDotProduct ⟨(1 : ℂ).im, -(1 : ℂ).re⟩ (c2r 1.5) =
      ((0.4 * 5.0 - 1.5) / (0.4 * 5.0 - 0.333333333 * (0.4 * 5.0))) *
        getDotProduct ⟨(1 : ℂ).im, -(1 : ℂ).re⟩ Complex.I ∧
    getDotProduct ⟨(1 : ℂ).im, -(1 : ℂ).re⟩ (c2r 1) =
      ((0.4 * 5.0 - 1) / (0.4 * 5.0 - 0.333333333 * (0.4 * 5.0))) *
        getDotProduct ⟨(1 : ℂ).im, -(1 : ℂ).re⟩ Complex.I ∧
    |getDotProduct ⟨(1 : ℂ).im, -(1 : ℂ).re⟩ (c2r 1.5)| ≤
      |getDotProduct ⟨(1 : ℂ).im, -(1 : ℂ).re⟩ (c2r 1)| :=
  C2_cross_limited_perpendicular_ramp st2 5 Complex.I 0 1 c2IterFar c2IterNear
    c2LineFar c2LineNear c2IterFar1 c2IterNear1
    (0.333333333 * (0.4 * 5.0)) (0.4 * 5.0) (0.4 * 5.0 - 0.333333333 * (0.4 * 5.0))
    1.5 1 (c2r 1.5) (c2r 1)
    rfl rfl rfl c2_nextFar c2_ptFar c2_nextNear c2_ptNear (map_one _)
    (by norm_num) (by norm_num) (by norm_num) (by norm_num) (by norm_num)
    c2_runFar c2_runNear

/-! ## The line parser and state machine -/

/-- Embeds the marker recognisers of `StretchFilter`. -/
def is_loop_begin (line : GLine) : Bool := pyStartswith line.raw "(<loop>"

def is_loop_end (line : GLine) : Bool := pyStartswith line.raw "(</loop>)"

def is_inner_edge_begin (line : GLine) : Bool :=
  pyStartswith line.raw "(<edge>" && !(pyStartswith line.raw "(<edge> outer")

def is_outer_edge_begin (line : GLine) : Bool := pyStartswith line.raw "(<edge> outer"

def is_edge_end (line : GLine) : Bool := pyStartswith line.raw "(/edge>)"

/-- Embeds `set_stretch_to_path`: clears the loop flag and sets the
maximum stretch to the path stretch; an `AttributeError` when
`pathAbsoluteStretch` was never assigned. -/
def set_stretch_to_path (self : StretchFilter) : Except Unit StretchFilter :=
  match self.pathAbsoluteStretch with
  | some p => .ok { self with isLoop := false, thread_maximum_absolute_stretch := p }
  | none => .error ()

/-- Embeds `StretchFilter.parse_line`.  `command = splitLine[0]` raises
`IndexError` on a line that splits to nothing.  A `G1` line is replaced by
its (possibly stretched) output line; every other line is appended
verbatim after its state-machine effect. -/
noncomputable def parse_line (self : StretchFilter) (fuel : ℕ) (line : GLine)
    (current_layer : List GLine) (line_number_in_layer : ℕ) : Except Unit StretchFilter :=
  match getSplitLineBeforeBracketSemicolon line.raw with
  | [] => .error ()
  | command :: _ =>
    if command = "G1" then do
      let res ← getStretchedLine self fuel line current_layer line_number_in_layer
      return { res.1 with output := res.1.output ++ [res.2] }
    else do
      let self' ←
        if command = "M101" then .ok { self with extruderActive := true }
        else if command = "M103" then
          match set_stretch_to_path { self with extruderActive := false } with
          | .ok st => .ok st
          | .error e => .error e
        else if is_loop_begin line then
          match self.loopMaximumAbsoluteStretch with
          | some v => .ok { self with isLoop := true, thread_maximum_absolute_stretch := v }
          | none => .error ()
        else if is_loop_end line then set_stretch_to_path self
        else if is_inner_edge_begin line then
          match self.edgeInsideAbsoluteStretch with
          | some v => .ok { self with isLoop := true, thread_maximum_absolute_stretch := v }
          | none => .error ()
        else if is_outer_edge_begin line then
          match self.edgeOutsideAbsoluteStretch with
          | some v => .ok { self with isLoop := true, thread_maximum_absolute_stretch := v }
          | none => .error ()
        else if is_edge_end line then set_stretch_to_path self
        else .ok self
      return { self' with output := self'.output ++ [.raw line.raw] }

/-- Embeds the per-layer loop of `StretchFilter.filter`: each line goes to
`parse_line` once initialisation has finished, else to
`parse_initialisation_line`. -/
noncomputable def filterLayerLines (fuel : ℕ) (current_layer : List GLine) :
    StretchFilter → Bool → ℕ → List GLine → Except Unit (StretchFilter × Bool)
  | self, init_done, _, [] => .ok (self, init_done)
  | self, init_done, n, line :: rest =>
    if init_done then do
      let self' ← parse_line self fuel line current_layer n
      filterLayerLines fuel current_layer self' true (n + 1) rest
    else do
      let res ← parse_initialisation_line self line
      filterLayerLines fuel current_layer res.1 res.2 (n + 1) rest

noncomputable def filterLayers (fuel : ℕ) :
    StretchFilter → Bool → List (List GLine) → Except Unit StretchFilter
  | self, _, [] => .ok self
  | self, init_done, layer :: rest => do
    let res ← filterLayerLines fuel layer self init_done 0 layer
    filterLayers fuel res.1 res.2 rest

/-- Embeds `StretchFilter.filter`.  The split of the raw program text into
layers (`GCode(gcodeText.split('\n')).all_layers`) is `gcoder` work that
is not under `src/`; modelled from the spec, the program is given directly
as its ordered list of layers. -/
noncomputable def runFilter (fuel : ℕ) (repo : StretchRepository)
    (layers : List (List GLine)) : Except Unit StretchFilter :=
  filterLayers fuel { stretchRepository := repo } false layers

/-! ### C9: stretching preserves the Z coordinate -/

/-- The move `getStretchedLineFromIndexLocation` emits carries the
original location's z and the carried feed rate. -/
theorem stretchedLineFromIndexLocation_move (self : StretchFilter) (fuel : ℕ)
    (iPrev iNext : ℤ) (location : Vector3) (layer : List GLine) (out : OutLine)
    (hrun : getStretchedLineFromIndexLocation self fuel iPrev iNext location layer = .ok out) :
    ∀ fr p z, out = .move fr p z → fr = self.feedRateMinute ∧ z = location.z := by
  intro fr p z hout
  simp only [getStretchedLineFromIndexLocation] at hrun
  obtain ⟨rsF, h1, hrun⟩ := bind_eq_ok hrun
  obtain ⟨rsB, h2, hrun⟩ := bind_eq_ok hrun
  obtain ⟨cl1, h3, hrun⟩ := bind_eq_ok hrun
  obtain ⟨cl2, h4, hrun⟩ := bind_eq_ok hrun
  simp only [pure, Except.pure, Except.ok.injEq] at hrun
  subst hrun
  obtain ⟨hfr, -, hz⟩ := OutLine.move.inj hout.symm
  exact ⟨hfr, hz⟩

/-- **C9** (confirmed).  Every stretched replacement line is emitted at
the original move's resolved Z coordinate; stretching changes only x and
y. -/
theorem C9_stretching_preserves_z (self : StretchFilter) (fuel : ℕ) (line : GLine)
    (layer : List GLine) (n : ℕ) (self' : StretchFilter) (out : OutLine)
    (hrun : getStretchedLine self fuel line layer n = .ok (self', out)) :
    ∀ fr p z, out = .move fr p z →
      z = (getLocationFromSplitLine self.oldLocation line).z := by
  intro fr p z hout
  simp only [getStretchedLine] at hrun
  split_ifs at hrun with h1 h2
  · obtain ⟨o, ho, hpure⟩ := bind_eq_ok hrun
    simp only [pure, Except.pure, Except.ok.injEq, Prod.mk.injEq] at hpure
    obtain ⟨-, houto⟩ := hpure
    subst houto
    exact (stretchedLineFromIndexLocation_move _ _ _ _ _ _ _ ho fr p z hout).2
  · obtain ⟨o, ho, hpure⟩ := bind_eq_ok hrun
    simp only [pure, Except.pure, Except.ok.injEq, Prod.mk.injEq] at hpure
    obtain ⟨-, houto⟩ := hpure
    subst houto
    exact (stretchedLineFromIndexLocation_move _ _ _ _ _ _ _ ho fr p z hout).2
  · simp only [Except.ok.injEq, Prod.mk.injEq] at hrun
    obtain ⟨-, houto⟩ := hrun
    rw [← houto] at hout
    exact absurd hout (by simp)

/-- Branch lemma: with the extruder active and a positive maximum
stretch, `getStretchedLine` always takes the stretch path. -/
theorem getStretchedLine_of_active (self : StretchFilter) (fuel : ℕ) (line : GLine)
    (layer : List GLine) (n : ℕ)
    (hact : self.extruderActive = true) (hpos : 0 < self.thread_maximum_absolute_stretch) :
    getStretchedLine self fuel line layer n = do
      let out ← getStretchedLineFromIndexLocation
        { self with
            feedRateMinute :=
              match line.f with
              | some f => if f = 0 then self.feedRateMinute else f
              | none => self.feedRateMinute,
            oldLocation := some (getLocationFromSplitLine self.oldLocation line) }
        fuel ((n : ℤ) - 1) ((n : ℤ) + 1)
        (getLocationFromSplitLine self.oldLocation line) layer
      return ({ self with
            feedRateMinute :=
              match line.f with
              | some f => if f = 0 then self.feedRateMinute else f
              | none => self.feedRateMinute,
            oldLocation := some (getLocationFromSplitLine self.oldLocation line) }, out) := by
  simp only [getStretchedLine]
  split_ifs with h1 h2
  · rfl
  · exact absurd ⟨hact, hpos⟩ h1
  · exact absurd ⟨hact, hpos⟩ h1

/-- Witness data for C9: with a positive maximum stretch and the extruder
on, the empty layer produces a stretched move at the original point. -/
noncomputable def stW9 : StretchFilter :=
  { stretchFromDistance := some 1, thread_maximum_absolute_stretch := 1,
    extruderActive := true }

noncomputable def lineW9 : GLine :=
  { raw := "G1 X1 Y2 Z3", command := "G1", x := some 1, y := some 2, z := some 3 }

noncomputable def stW9' : StretchFilter :=
  { stW9 with oldLocation := some (getLocationFromSplitLine stW9.oldLocation lineW9) }

noncomputable def locW9 : Vector3 := getLocationFromSplitLine stW9.oldLocation lineW9

theorem c9_from : getStretchedLineFromIndexLocation stW9' 5 (((0 : ℕ) : ℤ) - 1)
    (((0 : ℕ) : ℤ) + 1) locW9 [] = .ok (.move stW9'.feedRateMinute locW9.dropAxis locW9.z) := by
  have hF : LineIterator.getNext
      { dir := .forward, isLoop := stW9'.isLoop, lineIndex := ((0 : ℕ) : ℤ) + 1,
        lines := [] } 5 = .exhausted := rfl
  have hB : LineIterator.getNext
      { dir := .backward, isLoop := stW9'.isLoop, lineIndex := ((0 : ℕ) : ℤ) - 1,
        lines := [] } 5 = .exhausted := rfl
  have hrs : ∀ it : LineIterator, it.getNext 5 = .exhausted →
      ∀ lc : ℂ, getRelativeStretchAux stW9' 1 lc 5 lc 0 lc 0 it = .ok 0 := by
    intro it hit lc
    rw [show (5 : ℕ) = 4 + 1 from rfl, getRelativeStretchAux, hit]
    simp
  have hcl : ∀ v lc : ℂ, ∀ it : LineIterator, it.getNext 5 = .exhausted →
      getCrossLimitedStretch stW9' 5 v it lc = .ok v := by
    intro v lc it hit
    rw [getCrossLimitedStretch, hit]
  simp only [getStretchedLineFromIndexLocation, getRelativeStretch]
  simp only [show stW9'.stretchFromDistance = some 1 from rfl]
  simp only [hrs _ hF, hrs _ hB, hcl _ _ _ hF, hcl _ _ _ hB, Bind.bind, Except.bind]
  norm_num
  rfl

theorem c9_run : getStretchedLine stW9 5 lineW9 [] 0 =
    .ok (stW9', .move stW9'.feedRateMinute locW9.dropAxis locW9.z) := by
  rw [getStretchedLine_of_active stW9 5 lineW9 [] 0 rfl (by norm_num [stW9])]
  show (do
    let out ← getStretchedLineFromIndexLocation stW9' 5 (((0 : ℕ) : ℤ) - 1)
      (((0 : ℕ) : ℤ) + 1) locW9 []
    return (stW9', out)) = _
  rw [c9_from]
  rfl

theorem C9_stretching_preserves_z_witness :
    locW9.z = (getLocationFromSplitLine stW9.oldLocation lineW9).z :=
  C9_stretching_preserves_z stW9 5 lineW9 [] 0 stW9' _ c9_run stW9'.feedRateMinute
    locW9.dropAxis locW9.z rfl

/-! ### C8: the carried feed rate -/

/-- What `getStretchedLine` does to the carried feed rate: `line.f or
self.feedRateMinute`, with Python's `or` treating an explicit `F0` as
falsy; any emitted move carries the updated value. -/
theorem getStretchedLine_feed (self : StretchFilter) (fuel : ℕ) (line : GLine)
    (layer : List GLine) (n : ℕ) (self' : StretchFilter) (out : OutLine)
    (hrun : getStretchedLine self fuel line layer n = .ok (self', out)) :
    self'.feedRateMinute =
      (match line.f with
       | some f => if f = 0 then self.feedRateMinute else f
       | none => self.feedRateMinute) ∧
    self'.output = self.output ∧
    ∀ fr p z, out = .move fr p z → fr = self'.feedRateMinute := by
  simp only [getStretchedLine] at hrun
  split_ifs at hrun with h1 h2
  · obtain ⟨o, ho, hpure⟩ := bind_eq_ok hrun
    simp only [pure, Except.pure, Except.ok.injEq, Prod.mk.injEq] at hpure
    obtain ⟨hst, houto⟩ := hpure
    subst houto
    subst hst
    refine ⟨rfl, rfl, ?_⟩
    intro fr p z hout
    exact (stretchedLineFromIndexLocation_move _ _ _ _ _ _ _ ho fr p z hout).1
  · obtain ⟨o, ho, hpure⟩ := bind_eq_ok hrun
    simp only [pure, Except.pure, Except.ok.injEq, Prod.mk.injEq] at hpure
    obtain ⟨hst, houto⟩ := hpure
    subst houto
    subst hst
    refine ⟨rfl, rfl, ?_⟩
    intro fr p z hout
    exact (stretchedLineFromIndexLocation_move _ _ _ _ _ _ _ ho fr p z hout).1
  · simp only [Except.ok.injEq, Prod.mk.injEq] at hrun
    obtain ⟨hst, houto⟩ := hrun
    subst houto
    subst hst
    refine ⟨rfl, rfl, ?_⟩
    intro fr p z hout
    exact absurd hout (by simp)

/-- **C8** (amended, proved).  A processed linear-move line updates the
carried feed rate to its F value only when that value is *non-zero*; an
explicit `F0` (or no F at all) leaves the carried value unchanged, because
`line.f or self.feedRateMinute` treats `0.0` as falsy.  Every line the
move appends to the output either was already there or, if it is a
rendered move, carries exactly the updated feed rate. -/
theorem C8_feed_rate_update (self : StretchFilter) (fuel : ℕ) (line : GLine)
    (layer : List GLine) (n : ℕ) (self' : StretchFilter) (rest : List String)
    (hsplit : getSplitLineBeforeBracketSemicolon line.raw = "G1" :: rest)
    (hrun : parse_line self fuel line layer n = .ok self') :
    (∀ φ : ℝ, line.f = some φ → φ ≠ 0 → self'.feedRateMinute = φ) ∧
    (line.f = some 0 ∨ line.f = none → self'.feedRateMinute = self.feedRateMinute) ∧
    (∀ o ∈ self'.output, o ∈ self.output ∨
      ∀ fr p z, o = OutLine.move fr p z → fr = self'.feedRateMinute) := by
  rw [parse_line, hsplit] at hrun
  dsimp only at hrun
  rw [if_pos rfl] at hrun
  obtain ⟨res, hGS, hpure⟩ := bind_eq_ok hrun
  obtain ⟨st₂, out⟩ := res
  simp only [pure, Except.pure, Except.ok.injEq] at hpure
  obtain ⟨hfeed, houtput, hmove⟩ :=
    getStretchedLine_feed self fuel line layer n st₂ out hGS
  subst hpure
  refine ⟨?_, ?_, ?_⟩
  · intro φ hφ hφ0
    rw [hφ] at hfeed
    simp only at hfeed
    rw [if_neg hφ0] at hfeed
    exact hfeed
  · rintro (hf | hf) <;> rw [hf] at hfeed <;> simp only at hfeed
    · simpa using hfeed
    · exact hfeed
  · intro o ho
    rw [show ({ st₂ with output := st₂.output ++ [out] } : StretchFilter).output
      = st₂.output ++ [out] from rfl, List.mem_append] at ho
    rcases ho with ho | ho
    · exact Or.inl (houtput ▸ ho)
    · rw [List.mem_singleton] at ho
      subst ho
      exact Or.inr fun fr p z hout => hmove fr p z hout

noncomputable def g1f0Line : GLine := { raw := "G1 F0", command := "G1", f := some 0 }

theorem c8_run : getStretchedLine ({} : StretchFilter) 5 g1f0Line [] 0 =
    .ok ({ ({} : StretchFilter) with
      oldLocation := some (getLocationFromSplitLine none g1f0Line) }, .raw g1f0Line.raw) := by
  have hne : ¬(false = true) := by decide
  simp only [getStretchedLine, show g1f0Line.f = some 0 from rfl]
  rw [if_pos (by trivial : (True : Prop)), if_neg (fun h => hne h.1),
    if_neg (fun h => hne h.1)]

/-- **C8** (counterexample).  A processed `G1 F0` line does *not* update
the carried feed rate to 0: the carried value stays at its previous value
959, because `line.f or self.feedRateMinute` treats `0.0` as falsy. -/
theorem C8_zero_feed_not_updated :
    ∃ st' : StretchFilter, parse_line ({} : StretchFilter) 5 g1f0Line [] 0 = .ok st' ∧
      g1f0Line.f = some 0 ∧ st'.feedRateMinute = 959.0 ∧ (959.0 : ℝ) ≠ 0 := by
  have hsplit : getSplitLineBeforeBracketSemicolon g1f0Line.raw = ["G1", "F0"] := rfl
  have hrun : parse_line ({} : StretchFilter) 5 g1f0Line [] 0 =
      .ok { ({} : StretchFilter) with
        oldLocation := some (getLocationFromSplitLine none g1f0Line),
        output := [.raw g1f0Line.raw] } := by
    rw [parse_line, hsplit]
    dsimp only
    rw [if_pos rfl, c8_run]
    rfl
  exact ⟨_, hrun, rfl, rfl, by norm_num⟩

noncomputable def g1f100Line : GLine := { raw := "G1 F100", command := "G1", f := some 100 }

theorem c8_run100 : getStretchedLine ({} : StretchFilter) 5 g1f100Line [] 0 =
    .ok ({ ({} : StretchFilter) with
      feedRateMinute := 100,
      oldLocation := some (getLocationFromSplitLine none g1f100Line) },
      .raw g1f100Line.raw) := by
  have hne : ¬(false = true) := by decide
  simp only [getStretchedLine, show g1f100Line.f = some (100 : ℝ) from rfl]
  rw [if_neg (show ¬((100 : ℝ) = 0) by norm_num), if_neg (fun h => hne h.1),
    if_neg (fun h => hne h.1)]

noncomputable def st8' : StretchFilter :=
  { ({} : StretchFilter) with
    feedRateMinute := 100,
    oldLocation := some (getLocationFromSplitLine none g1f100Line),
    output := [.raw g1f100Line.raw] }

theorem c8_parse100 : parse_line ({} : StretchFilter) 5 g1f100Line [] 0 = .ok st8' := by
  have hsplit : getSplitLineBeforeBracketSemicolon g1f100Line.raw = ["G1", "F100"] := rfl
  rw [parse_line, hsplit]
  dsimp only
  rw [if_pos rfl, c8_run100]
  rfl

theorem C8_feed_rate_update_witness :
    (∀ φ : ℝ, g1f100Line.f = some φ → φ ≠ 0 → st8'.feedRateMinute = φ) ∧
    (g1f100Line.f = some 0 ∨ g1f100Line.f = none →
      st8'.feedRateMinute = ({} : StretchFilter).feedRateMinute) ∧
    (∀ o ∈ st8'.output, o ∈ ({} : StretchFilter).output ∨
      ∀ fr p z, o = OutLine.move fr p z → fr = st8'.feedRateMinute) :=
  C8_feed_rate_update ({} : StretchFilter) 5 g1f100Line [] 0 st8' ["F100"] rfl c8_parse100

/-! ### C6: the edge-end marker resets the feature state to Path -/

/-- Two markers neither of which is a prefix of the other cannot both
begin the same raw line. -/
theorem pyStartswith_eq_false_of_incomp (raw p q : String)
    (h : pyStartswith raw p = true)
    (hpq : ¬ (p.toList <+: q.toList)) (hqp : ¬ (q.toList <+: p.toList)) :
    pyStartswith raw q = false := by
  rw [pyStartswith, ← Bool.not_eq_true, List.isPrefixOf_iff_prefix]
  intro hq
  rw [pyStartswith, List.isPrefixOf_iff_prefix] at h
  rcases List.prefix_or_prefix_of_prefix h hq with hh | hh
  · exact hpq hh
  · exact hqp hh

/-- The Python `split()` with a nonempty accumulated word always emits
that word (extended by the rest of the current chunk) first. -/
theorem pySplitAux_acc_head : ∀ (cs acc : List Char), acc ≠ [] →
    ∃ w tail, pySplitAux cs acc = ((acc.reverse ++ w).asString) :: tail := by
  intro cs
  induction cs with
  | nil =>
    intro acc hacc
    refine ⟨[], [], ?_⟩
    rw [pySplitAux, if_neg hacc]
    simp
  | cons c cs ih =>
    intro acc hacc
    rw [pySplitAux]
    by_cases hc : c = ' '
    · rw [if_pos hc, if_neg hacc]
      exact ⟨[], pySplitAux cs [], by simp⟩
    · rw [if_neg hc]
      obtain ⟨w, tail, heq⟩ := ih (c :: acc) (by simp)
      refine ⟨c :: w, tail, ?_⟩
      rw [heq]
      congr 2
      simp

/-- A raw line beginning with `(` splits to a first word that begins with
`(`. -/
theorem split_head_bracket (raw : String) (cs : List Char)
    (hraw : raw.toList = '(' :: cs) :
    ∃ w tail, getSplitLineBeforeBracketSemicolon raw = (('(' :: w).asString) :: tail := by
  rw [getSplitLineBeforeBracketSemicolon, hraw]
  rw [show ('(' :: cs).takeWhile (fun c => c != ';') =
    '(' :: cs.takeWhile (fun c => c != ';') from rfl]
  rw [show (('(' :: cs.takeWhile (fun c => c != ';')).findIdx? (fun c => c == '(')) =
    some 0 from rfl]
  dsimp only
  rw [if_neg (by decide : ¬ (0 < 0))]
  rw [show pySplitAux ('(' :: cs.takeWhile (fun c => c != ';')) [] =
    pySplitAux (cs.takeWhile (fun c => c != ';')) ['('] from rfl]
  obtain ⟨w, tail, heq⟩ := pySplitAux_acc_head (cs.takeWhile (fun c => c != ';')) ['('] (by simp)
  exact ⟨w, tail, by rw [heq]; rfl⟩

/-- The first character of a word built on a leading bracket. -/
theorem head_of_bracket_word (w : List Char) (s : String) (h : ('(' :: w).asString = s) :
    s.toList.head? = some '(' := by
  rw [← h]
  rfl

/-- **C6** (confirmed).  Scanning a line recognised as an edge-end marker
(`raw` starts with `"(/edge>)"`) resets the feature state to Path: the
loop flag is cleared and the maximum stretch becomes the path stretch, so
subsequent qualifying moves use the path maximum-stretch magnitude; the
line itself passes through verbatim. -/
theorem C6_edge_end_resets_to_path (self : StretchFilter) (fuel : ℕ) (line : GLine)
    (layer : List GLine) (n : ℕ) (p : ℝ)
    (hmark : pyStartswith line.raw "(/edge>)" = true)
    (hpath : self.pathAbsoluteStretch = some p) :
    parse_line self fuel line layer n =
      .ok { self with
              isLoop := false,
              thread_maximum_absolute_stretch := p,
              output := self.output ++ [.raw line.raw] } := by
  have hpref := hmark
  rw [pyStartswith, List.isPrefixOf_iff_prefix] at hpref
  obtain ⟨t, ht⟩ := hpref
  have hraw : line.raw.toList = '(' :: ('/' :: 'e' :: 'd' :: 'g' :: 'e' :: '>' :: ')' :: t) := by
    rw [← ht]
    rfl
  obtain ⟨w, tail, hsplit⟩ := split_head_bracket line.raw _ hraw
  have hG1 : ¬ ((('(' :: w).asString) = "G1") := by
    intro h
    exact absurd (head_of_bracket_word w _ h) (by decide)
  have hM101 : ¬ ((('(' :: w).asString) = "M101") := by
    intro h
    exact absurd (head_of_bracket_word w _ h) (by decide)
  have hM103 : ¬ ((('(' :: w).asString) = "M103") := by
    intro h
    exact absurd (head_of_bracket_word w _ h) (by decide)
  have hlb : is_loop_begin line = false :=
    pyStartswith_eq_false_of_incomp line.raw "(/edge>)" "(<loop>" hmark
      (by decide) (by decide)
  have hle : is_loop_end line = false :=
    pyStartswith_eq_false_of_incomp line.raw "(/edge>)" "(</loop>)" hmark
      (by decide) (by decide)
  have hedge : pyStartswith line.raw "(<edge>" = false :=
    pyStartswith_eq_false_of_incomp line.raw "(/edge>)" "(<edge>" hmark
      (by decide) (by decide)
  have hie : is_inner_edge_begin line = false := by
    rw [is_inner_edge_begin, hedge]
    rfl
  have hoe : is_outer_edge_begin line = false :=
    pyStartswith_eq_false_of_incomp line.raw "(/edge>)" "(<edge> outer" hmark
      (by decide) (by decide)
  rw [parse_line, hsplit]
  dsimp only
  rw [if_neg hG1, if_neg hM101, if_neg hM103,
    if_neg (by simp [hlb] : ¬ (is_loop_begin line = true)),
    if_neg (by simp [hle] : ¬ (is_loop_end line = true)),
    if_neg (by simp [hie] : ¬ (is_inner_edge_begin line = true)),
    if_neg (by simp [hoe] : ¬ (is_outer_edge_begin line = true)),
    if_pos (by rw [is_edge_end, hmark] : is_edge_end line = true)]
  rw [set_stretch_to_path, hpath]
  rfl

/-- Witness data for C6: the canonical edge-end marker line hitting an
initialised state. -/
def edgeEndLine : GLine := { raw := "(/edge>)" }

noncomputable def stW6 : StretchFilter := { pathAbsoluteStretch := some 1 }

theorem C6_edge_end_resets_to_path_witness :
    parse_line stW6 5 edgeEndLine [] 0 =
      .ok { stW6 with
              isLoop := false,
              thread_maximum_absolute_stretch := 1,
              output := stW6.output ++ [.raw edgeEndLine.raw] } :=
  C6_edge_end_resets_to_path stW6 5 edgeEndLine [] 0 1 (by decide) rfl

/-! ### C7: behaviour when the edge-width marker is missing -/

/-- The threshold attributes of a run that has never matched the
edge-width marker: none was ever assigned, and the maximum stretch is
still the constructor's 0. -/
def UninitThresholds (st : StretchFilter) : Prop :=
  st.crossLimitDistance = none ∧
  st.loopMaximumAbsoluteStretch = none ∧
  st.pathAbsoluteStretch = none ∧
  st.edgeInsideAbsoluteStretch = none ∧
  st.edgeOutsideAbsoluteStretch = none ∧
  st.stretchFromDistance = none ∧
  st.thread_maximum_absolute_stretch = 0

/-- With a zero maximum stretch, `getStretchedLine` passes the raw line
through, only updating the carried feed rate and location. -/
theorem getStretchedLine_passthrough (self : StretchFilter) (fuel : ℕ) (line : GLine)
    (layer : List GLine) (n : ℕ)
    (hthread : self.thread_maximum_absolute_stretch = 0) :
    getStretchedLine self fuel line layer n =
      .ok ({ self with
              feedRateMinute :=
                match line.f with
                | some f => if f = 0 then self.feedRateMinute else f
                | none => self.feedRateMinute,
              oldLocation := some (getLocationFromSplitLine self.oldLocation line) },
        .raw line.raw) := by
  simp only [getStretchedLine]
  split_ifs with h1 h2
  · exfalso
    have hp : (0 : ℝ) < self.thread_maximum_absolute_stretch := h1.2
    rw [hthread] at hp
    exact lt_irrefl 0 hp
  · exfalso
    have hp : (0 : ℝ) < self.thread_maximum_absolute_stretch := h2.2
    rw [hthread] at hp
    exact lt_irrefl 0 hp
  · rfl

/-- An initialisation line with no edge-width match leaves the thresholds
unassigned and at most copies the raw line to the output. -/
theorem parse_initialisation_uninit (st : StretchFilter) (line : GLine)
    (st' : StretchFilter) (d : Bool)
    (hcap : edgeWidthCapture line.raw = none)
    (hrun : parse_initialisation_line st line = .ok (st', d))
    (hinv : UninitThresholds st) :
    UninitThresholds st' ∧
      (st'.output = st.output ∨ st'.output = st.output ++ [.raw line.raw]) := by
  rw [parse_initialisation_line] at hrun
  split_ifs at hrun with h1
  · simp only [Except.ok.injEq, Prod.mk.injEq] at hrun
    obtain ⟨h2, -⟩ := hrun
    subst h2
    exact ⟨hinv, Or.inl rfl⟩
  · rw [hcap] at hrun
    simp only [Except.ok.injEq, Prod.mk.injEq] at hrun
    obtain ⟨h2, -⟩ := hrun
    subst h2
    exact ⟨hinv, Or.inr rfl⟩

/-- After initialisation, a run whose thresholds were never assigned
either fails or appends the line verbatim, preserving the unassigned
thresholds: a `G1` passes through unstretched (zero maximum stretch), and
each deactivate / loop / edge transition would raise an
`AttributeError`. -/
theorem parse_line_uninit (st : StretchFilter) (fuel : ℕ) (line : GLine)
    (layer : List GLine) (n : ℕ) (st' : StretchFilter)
    (hrun : parse_line st fuel line layer n = .ok st')
    (hinv : UninitThresholds st) :
    UninitThresholds st' ∧ st'.output = st.output ++ [.raw line.raw] := by
  obtain ⟨hc, hl, hp, hi, ho, hsf, hth⟩ := hinv
  rw [parse_line] at hrun
  cases hs : getSplitLineBeforeBracketSemicolon line.raw with
  | nil =>
    rw [hs] at hrun
    exact absurd hrun (by simp)
  | cons command rest =>
    rw [hs] at hrun
    dsimp only at hrun
    by_cases hG1 : command = "G1"
    · rw [if_pos hG1] at hrun
      obtain ⟨res, hGS, hpure⟩ := bind_eq_ok hrun
      obtain ⟨st₂, out⟩ := res
      simp only [pure, Except.pure, Except.ok.injEq] at hpure
      subst hpure
      rw [getStretchedLine_passthrough st fuel line layer n hth, Except.ok.injEq,
        Prod.mk.injEq] at hGS
      obtain ⟨hst₂, hout⟩ := hGS
      subst hout
      subst hst₂
      exact ⟨⟨hc, hl, hp, hi, ho, hsf, hth⟩, rfl⟩
    · rw [if_neg hG1] at hrun
      split_ifs at hrun with h1 h2 h3 h4 h5 h6 h7
      · simp only [Bind.bind, Except.bind, pure, Except.pure, Except.ok.injEq] at hrun
        subst hrun
        exact ⟨⟨hc, hl, hp, hi, ho, hsf, hth⟩, rfl⟩
      · rw [set_stretch_to_path,
          show ({ st with extruderActive := false } : StretchFilter).pathAbsoluteStretch
            = st.pathAbsoluteStretch from rfl, hp] at hrun
        exact absurd hrun (by simp [Bind.bind, Except.bind])
      · rw [hl] at hrun
        exact absurd hrun (by simp [Bind.bind, Except.bind])
      · rw [set_stretch_to_path, hp] at hrun
        exact absurd hrun (by simp [Bind.bind, Except.bind])
      · rw [hi] at hrun
        exact absurd hrun (by simp [Bind.bind, Except.bind])
      · rw [ho] at hrun
        exact absurd hrun (by simp [Bind.bind, Except.bind])
      · rw [set_stretch_to_path, hp] at hrun
        exact absurd hrun (by simp [Bind.bind, Except.bind])
      · simp only [Bind.bind, Except.bind, pure, Except.pure, Except.ok.injEq] at hrun
        subst hrun
        exact ⟨⟨hc, hl, hp, hi, ho, hsf, hth⟩, rfl⟩

theorem filterLayerLines_uninit (fuel : ℕ) (layer : List GLine) :
    ∀ (rest : List GLine) (st : StretchFilter) (d : Bool) (n : ℕ)
      (st' : StretchFilter) (d' : Bool),
      (∀ l ∈ rest, edgeWidthCapture l.raw = none) →
      filterLayerLines fuel layer st d n rest = .ok (st', d') →
      UninitThresholds st →
      (∀ o ∈ st.output, ∃ s, o = OutLine.raw s) →
      UninitThresholds st' ∧ ∀ o ∈ st'.output, ∃ s, o = OutLine.raw s := by
  intro rest
  induction rest with
  | nil =>
    intro st d n st' d' hcap hrun hinv hout
    rw [filterLayerLines] at hrun
    simp only [Except.ok.injEq, Prod.mk.injEq] at hrun
    obtain ⟨h1, -⟩ := hrun
    subst h1
    exact ⟨hinv, hout⟩
  | cons line rest ih =>
    intro st d n st' d' hcap hrun hinv hout
    rw [filterLayerLines] at hrun
    by_cases hd : d = true
    · rw [if_pos hd] at hrun
      obtain ⟨st₂, hpl, hrest⟩ := bind_eq_ok hrun
      obtain ⟨hinv₂, hout₂⟩ := parse_line_uninit st fuel line layer n st₂ hpl hinv
      refine ih st₂ true (n + 1) st' d' (fun l hl => hcap l (List.mem_cons_of_mem _ hl))
        hrest hinv₂ ?_
      intro o hoo
      rw [hout₂, List.mem_append] at hoo
      rcases hoo with hoo | hoo
      · exact hout o hoo
      · rw [List.mem_singleton] at hoo
        exact ⟨line.raw, hoo⟩
    · rw [if_neg hd] at hrun
      obtain ⟨res, hpl, hrest⟩ := bind_eq_ok hrun
      obtain ⟨st₂, d₂⟩ := res
      obtain ⟨hinv₂, hout₂⟩ := parse_initialisation_uninit st line st₂ d₂
        (hcap line (List.mem_cons_self _ _)) hpl hinv
      refine ih st₂ d₂ (n + 1) st' d' (fun l hl => hcap l (List.mem_cons_of_mem _ hl))
        hrest hinv₂ ?_
      intro o hoo
      rcases hout₂ with h | h
      · exact hout o (h ▸ hoo)
      · rw [h, List.mem_append] at hoo
        rcases hoo with hoo | hoo
        · exact hout o hoo
        · rw [List.mem_singleton] at hoo
          exact ⟨line.raw, hoo⟩

theorem filterLayers_uninit (fuel : ℕ) :
    ∀ (layers : List (List GLine)) (st : StretchFilter) (d : Bool)
      (st' : StretchFilter),
      (∀ layer ∈ layers, ∀ l ∈ layer, edgeWidthCapture l.raw = none) →
      filterLayers fuel st d layers = .ok st' →
      UninitThresholds st →
      (∀ o ∈ st.output, ∃ s, o = OutLine.raw s) →
      UninitThresholds st' ∧ ∀ o ∈ st'.output, ∃ s, o = OutLine.raw s := by
  intro layers
  induction layers with
  | nil =>
    intro st d st' hcap hrun hinv hout
    rw [filterLayers] at hrun
    simp only [Except.ok.injEq] at hrun
    subst hrun
    exact ⟨hinv, hout⟩
  | cons layer rest ih =>
    intro st d st' hcap hrun hinv hout
    rw [filterLayers] at hrun
    obtain ⟨res, hlay, hrest⟩ := bind_eq_ok hrun
    obtain ⟨st₂, d₂⟩ := res
    obtain ⟨hinv₂, hout₂⟩ := filterLayerLines_uninit fuel layer layer st d 0 st₂ d₂
      (hcap layer (List.mem_cons_self _ _)) hlay hinv hout
    exact ih st₂ d₂ st' (fun l hl => hcap l (List.mem_cons_of_mem _ hl)) hrest hinv₂ hout₂

/-- **C7** (amended, proved).  If the program contains no edge-width
marker comment, the derived thresholds are *never* initialised (at
default 0.4 or any other value): the maximum stretch stays 0, so no
linear move is stretched and every emitted output line is a verbatim
copy, no matter how `pathStretchRatio` is configured; and the run raises
an `AttributeError` at the first deactivate / loop-end / edge-end line
after initialisation, rather than using default thresholds. -/
theorem C7_no_marker_no_stretch (fuel : ℕ) (repo : StretchRepository)
    (layers : List (List GLine)) (st' : StretchFilter)
    (hcap : ∀ layer ∈ layers, ∀ l ∈ layer, edgeWidthCapture l.raw = none)
    (hrun : runFilter fuel repo layers = .ok st') :
    st'.crossLimitDistance = none ∧ st'.pathAbsoluteStretch = none ∧
    st'.stretchFromDistance = none ∧ st'.thread_maximum_absolute_stretch = 0 ∧
    ∀ o ∈ st'.output, ∃ s, o = OutLine.raw s := by
  rw [runFilter] at hrun
  obtain ⟨hinv, hout⟩ := filterLayers_uninit fuel layers { stretchRepository := repo }
    false st' hcap hrun ⟨rfl, rfl, rfl, rfl, rfl, rfl, rfl⟩ (by intro o hoo; simp at hoo)
  exact ⟨hinv.1, hinv.2.2.1, hinv.2.2.2.2.2.1, hinv.2.2.2.2.2.2, hout⟩

/-! #### The concrete marker-free program -/

def initEndLine : GLine := { raw := "(</extruderInitialization>)" }

noncomputable def g1xLine : GLine := { raw := "G1 X1", command := "G1", x := some 1 }

noncomputable def repo7 : StretchRepository := { pathStretchOverEdgeWidth := 0.1 }

noncomputable def st7a : StretchFilter := { stretchRepository := repo7 }

noncomputable def st7b : StretchFilter :=
  { st7a with extruderActive := true, output := [.raw m101Line.raw] }

noncomputable def st7c : StretchFilter :=
  { st7b with
    oldLocation := some (getLocationFromSplitLine st7b.oldLocation g1xLine),
    output := st7b.output ++ [.raw g1xLine.raw] }

noncomputable def c7Layer : List GLine := [initEndLine, m101Line, g1xLine]

theorem c7_run : runFilter 5 repo7 [c7Layer] = .ok st7c := by
  have h1 : parse_initialisation_line st7a initEndLine = .ok (st7a, true) := rfl
  have h2 : parse_line st7a 5 m101Line c7Layer 1 = .ok st7b := rfl
  have h3 : parse_line st7b 5 g1xLine c7Layer 2 = .ok st7c := by
    have hsplit : getSplitLineBeforeBracketSemicolon g1xLine.raw = ["G1", "X1"] := rfl
    rw [parse_line, hsplit]
    dsimp only
    rw [if_pos rfl, getStretchedLine_passthrough st7b 5 g1xLine c7Layer 2 rfl]
    rfl
  rw [runFilter, filterLayers]
  show (do
    let res ← filterLayerLines 5 c7Layer st7a false 0 c7Layer
    filterLayers 5 res.1 res.2 []) = .ok st7c
  have hlay : filterLayerLines 5 c7Layer st7a false 0 c7Layer = .ok (st7c, true) := by
    show filterLayerLines 5 c7Layer st7a false 0 [initEndLine, m101Line, g1xLine] = _
    rw [filterLayerLines, if_neg (by decide : ¬ (false = true)), h1]
    show filterLayerLines 5 c7Layer st7a true 1 [m101Line, g1xLine] = _
    rw [filterLayerLines, if_pos rfl, h2]
    show filterLayerLines 5 c7Layer st7b true 2 [g1xLine] = _
    rw [filterLayerLines, if_pos rfl, h3]
    show filterLayerLines 5 c7Layer st7c true 3 [] = _
    rw [filterLayerLines]
  rw [hlay]
  rfl

/-- **C7** (counterexample).  The marker-free program
`[(</extruderInitialization>), M101, G1 X1]` with `pathStretchRatio`
configured to 0.1 runs to completion with the thresholds never
initialised, a maximum stretch of 0, and both processed lines emitted
verbatim: no non-zero path stretch is produced, and no default edge
width is applied. -/
theorem C7_no_default_edge_width :
    runFilter 5 repo7 [c7Layer] = .ok st7c ∧
    repo7.pathStretchOverEdgeWidth ≠ 0 ∧
    st7c.crossLimitDistance = none ∧
    st7c.thread_maximum_absolute_stretch = 0 ∧
    st7c.output = [.raw m101Line.raw, .raw g1xLine.raw] :=
  ⟨c7_run, by norm_num [repo7], rfl, rfl, rfl⟩

theorem C7_no_marker_no_stretch_witness :
    st7c.crossLimitDistance = none ∧ st7c.pathAbsoluteStretch = none ∧
    st7c.stretchFromDistance = none ∧ st7c.thread_maximum_absolute_stretch = 0 ∧
    ∀ o ∈ st7c.output, ∃ s, o = OutLine.raw s := by
  apply C7_no_marker_no_stretch 5 repo7 [c7Layer] st7c ?_ c7_run
  intro layer hlay l hl
  rw [List.mem_singleton] at hlay
  subst hlay
  rw [c7Layer] at hl
  fin_cases hl <;> decide

/-! ### C4: loop-cursor termination on the canonical loop layer -/

/-- A layer holding one closed loop: a preamble (no moves, no extruder
commands), the activate command, N linear moves, and the deactivate
command. -/
def loopLayer (pre : List GLine) (act : GLine) (moves : List GLine) (deact : GLine) :
    List GLine :=
  pre ++ act :: (moves ++ [deact])

section LoopTermination

variable {pre : List GLine} {act : GLine} {moves : List GLine} {deact : GLine}

theorem loopLayer_length :
    (loopLayer pre act moves deact).length = pre.length + moves.length + 2 := by
  simp [loopLayer]
  omega

theorem loopLayer_assoc :
    loopLayer pre act moves deact = (pre ++ act :: moves) ++ [deact] := by
  simp [loopLayer]

theorem loopLayer_get_pre {i : ℕ} (hi : i < pre.length) :
    ∃ l, (loopLayer pre act moves deact)[i]? = some l ∧ l ∈ pre := by
  rw [loopLayer, List.getElem?_append, if_pos hi, List.getElem?_eq_getElem hi]
  exact ⟨pre[i], rfl, List.getElem_mem hi⟩

theorem loopLayer_get_act :
    (loopLayer pre act moves deact)[pre.length]? = some act := by
  rw [loopLayer, List.getElem?_append, if_neg (by omega), Nat.sub_self,
    List.getElem?_cons_zero]

theorem loopLayer_get_move {i : ℕ} (h1 : pre.length + 1 ≤ i) (h2 : i ≤ pre.length + moves.length) :
    ∃ m, (loopLayer pre act moves deact)[i]? = some m ∧ m ∈ moves := by
  have hmlt : i - pre.length - 1 < moves.length := by omega
  rw [loopLayer, List.getElem?_append, if_neg (by omega)]
  rw [show i - pre.length = (i - pre.length - 1) + 1 by omega, List.getElem?_cons_succ]
  rw [List.getElem?_append, if_pos hmlt, List.getElem?_eq_getElem hmlt]
  exact ⟨moves[i - pre.length - 1], rfl, List.getElem_mem hmlt⟩

theorem loopLayer_get_deact :
    (loopLayer pre act moves deact)[pre.length + moves.length + 1]? = some deact := by
  rw [loopLayer, List.getElem?_append, if_neg (by omega)]
  rw [show pre.length + moves.length + 1 - pre.length = moves.length + 1 by omega,
    List.getElem?_cons_succ, List.getElem?_append, if_neg (by omega), Nat.sub_self,
    List.getElem?_cons_zero]

theorem loopLayer_get_none {i : ℕ} (hi : pre.length + moves.length + 2 ≤ i) :
    (loopLayer pre act moves deact)[i]? = none :=
  List.getElem?_eq_none (by rw [loopLayer_length]; omega)

/-- Commands at indices strictly above the activate index are never
`M101`. -/
theorem loopLayer_no_M101_above
    (hdeact : deact.command = "M103") (hmoves : ∀ m ∈ moves, m.command = "G1")
    {j : ℕ} (hj : pre.length < j) :
    ∀ l, (loopLayer pre act moves deact)[j]? = some l → l.command ≠ "M101" := by
  intro l hl
  by_cases h1 : j ≤ pre.length + moves.length
  · obtain ⟨m, hm, hmem⟩ := @loopLayer_get_move pre act moves deact j (by omega) h1
    rw [hm] at hl
    cases hl
    rw [hmoves _ hmem]
    decide
  · by_cases h2 : j = pre.length + moves.length + 1
    · subst h2
      rw [loopLayer_get_deact] at hl
      cases hl
      rw [hdeact]
      decide
    · rw [loopLayer_get_none (by omega)] at hl
      cases hl

/-- The only `M103` in the layer sits at the deactivate index. -/
theorem loopLayer_no_M103_mem
    (hpre : ∀ l ∈ pre, l.command ≠ "G1" ∧ l.command ≠ "M101" ∧ l.command ≠ "M103")
    (hact : act.command = "M101") (hmoves : ∀ m ∈ moves, m.command = "G1") :
    ∀ l ∈ pre ++ act :: moves, l.command ≠ "M103" := by
  intro l hl
  rw [List.mem_append, List.mem_cons] at hl
  rcases hl with h | h | h
  · exact (hpre l h).2.2
  · rw [h, hact]; decide
  · rw [hmoves l h]; decide

theorem findFirstFrom_append_none (cmd : String) (ys : List GLine) :
    ∀ (xs : List GLine) (i : ℕ), (∀ l ∈ xs, l.command ≠ cmd) →
      findFirstFrom cmd (xs ++ ys) i = findFirstFrom cmd ys (i + xs.length) := by
  intro xs
  induction xs with
  | nil => intro i h; simp
  | cons x xs ih =>
    intro i h
    rw [List.cons_append, findFirstFrom, if_neg (h x (List.mem_cons_self _ _)),
      ih (i + 1) (fun l hl => h l (List.mem_cons_of_mem _ hl))]
    congr 1
    simp
    omega

theorem loopLayer_findDeact
    (hpre : ∀ l ∈ pre, l.command ≠ "G1" ∧ l.command ≠ "M101" ∧ l.command ≠ "M103")
    (hact : act.command = "M101") (hdeact : deact.command = "M103")
    (hmoves : ∀ m ∈ moves, m.command = "G1")
    {s : ℕ} (hs : s ≤ pre.length + moves.length + 1) :
    findIdxFrom (loopLayer pre act moves deact) s "M103"
      = some (pre.length + moves.length + 1) := by
  have hfront : (pre ++ act :: moves).length = pre.length + moves.length + 1 := by
    simp
    omega
  rw [findIdxFrom, loopLayer_assoc, List.drop_append_eq_append_drop,
    show s - (pre ++ act :: moves).length = 0 by omega, List.drop_zero,
    findFirstFrom_append_none "M103" [deact] _ s
      (fun l hl => loopLayer_no_M103_mem hpre hact hmoves l (List.mem_of_mem_drop hl)),
    findFirstFrom, if_pos hdeact]
  congr 1
  rw [List.length_drop, hfront]
  omega

theorem loopLayer_findDeact_none {s : ℕ} (hs : pre.length + moves.length + 2 ≤ s) :
    findIdxFrom (loopLayer pre act moves deact) s "M103" = none := by
  rw [findIdxFrom, List.drop_eq_nil_of_le (by rw [loopLayer_length]; omega)]
  rfl

theorem loopLayer_findActDown
    (hact : act.command = "M101") (hdeact : deact.command = "M103")
    (hmoves : ∀ m ∈ moves, m.command = "G1") :
    ∀ k : ℕ, 1 ≤ pre.length → pre.length ≤ k →
      findCmdDown (loopLayer pre act moves deact) "M101" k = some pre.length := by
  intro k
  induction k with
  | zero => intro h1 h2; omega
  | succ j ih =>
    intro h1 h2
    by_cases he : j + 1 = pre.length
    · rw [findCmdDown,
        show (loopLayer pre act moves deact)[j + 1]? = some act by
          rw [he]; exact loopLayer_get_act]
      dsimp only
      rw [if_pos hact]
      simp [he]
    · have hgt : pre.length < j + 1 := by omega
      rw [findCmdDown]
      cases hLj : (loopLayer pre act moves deact)[j + 1]? with
      | none => exact ih h1 (by omega)
      | some l =>
        dsimp only
        rw [if_neg (loopLayer_no_M101_above hdeact hmoves hgt l hLj)]
        exact ih h1 (by omega)

theorem isBeforeExtrusionAux_moves (deact : GLine) (hdeact : deact.command = "M103") :
    ∀ ms : List GLine, (∀ m ∈ ms, m.command = "G1") → ∀ c : ℕ,
      isBeforeExtrusionAux (ms ++ [deact]) c = false := by
  intro ms
  induction ms with
  | nil =>
    intro _ c
    simp [isBeforeExtrusionAux, hdeact]
  | cons m ms ih =>
    intro hms c
    have h1 : m.command = "G1" := hms m (List.mem_cons_self _ _)
    simp only [List.cons_append, isBeforeExtrusionAux, h1]
    rw [if_pos (by trivial : (True : Prop))]
    exact ih (fun x hx => hms x (List.mem_cons_of_mem _ hx)) (c + 1)

theorem loopLayer_isBeforeExtrusion_false
    (hdeact : deact.command = "M103") (hmoves : ∀ m ∈ moves, m.command = "G1")
    {i : ℤ} (hi : (pre.length : ℤ) ≤ i) (d : IterDir) (b : Bool) (f : Option ℤ) :
    LineIterator.isBeforeExtrusion
      { dir := d, isLoop := b, firstLineIndex := f, lineIndex := i,
        lines := loopLayer pre act moves deact } = false := by
  rw [LineIterator.isBeforeExtrusion]
  dsimp only
  by_cases h2 : (i + 1).toNat ≤ pre.length + moves.length + 1
  · have hk : pre.length + 1 ≤ (i + 1).toNat := by omega
    rw [loopLayer_assoc, List.drop_append_eq_append_drop]
    have hfront : (pre ++ act :: moves).length = pre.length + moves.length + 1 := by
      simp
      omega
    rw [show [deact].drop ((i + 1).toNat - (pre ++ act :: moves).length) = [deact] by
      rw [show (i + 1).toNat - (pre ++ act :: moves).length = 0 by omega, List.drop_zero]]
    rw [List.drop_append_eq_append_drop,
      List.drop_eq_nil_of_le (le_trans (Nat.le_of_lt_succ (by omega)) (le_refl _)),
      List.nil_append]
    rw [show (act :: moves).drop ((i + 1).toNat - pre.length)
        = moves.drop ((i + 1).toNat - pre.length - 1) by
      rw [show (i + 1).toNat - pre.length = ((i + 1).toNat - pre.length - 1) + 1 by omega,
        List.drop_succ_cons]
      congr 1]
    exact isBeforeExtrusionAux_moves deact hdeact _
      (fun x hx => hmoves x (List.mem_of_mem_drop hx)) 0
  · rw [List.drop_eq_nil_of_le (by rw [loopLayer_length]; omega)]
    rfl

end LoopTermination

/-- A loop cursor over the canonical loop layer. -/
def loopIter (pre : List GLine) (act : GLine) (moves : List GLine) (deact : GLine)
    (d : IterDir) (f : Option ℤ) (i : ℤ) : LineIterator :=
  { dir := d, isLoop := true, firstLineIndex := f, lineIndex := i,
    lines := loopLayer pre act moves deact }

/-- `firstLineIndex` after `markFirst`. -/
def markF (f : Option ℤ) (i : ℤ) : Option ℤ :=
  match f with
  | none => some i
  | some f₀ => some f₀

section LoopTermination2

variable {pre : List GLine} {act : GLine} {moves : List GLine} {deact : GLine}

theorem markFirst_lit (d : IterDir) (b : Bool) (f : Option ℤ) (i : ℤ) (L : List GLine) :
    markFirst { dir := d, isLoop := b, firstLineIndex := f, lineIndex := i, lines := L }
      = { dir := d, isLoop := b, firstLineIndex := markF f i, lineIndex := i, lines := L } := by
  cases f <;> rfl

theorem markF_ne {f : Option ℤ} {i j : ℤ} (hf : ∀ k, f = some k → j < k) (hj : j < i) :
    ∀ k, markF f i = some k → j < k := by
  intro k hk
  cases f with
  | none => cases hk; exact hj
  | some f₀ => cases hk; exact hf k rfl

theorem deactIdx_lit
    (hpre : ∀ l ∈ pre, l.command ≠ "G1" ∧ l.command ≠ "M101" ∧ l.command ≠ "M103")
    (hact : act.command = "M101") (hdeact : deact.command = "M103")
    (hmoves : ∀ m ∈ moves, m.command = "G1")
    (d : IterDir) (b : Bool) (f : Option ℤ) {i : ℤ}
    (hi : (i + 1).toNat ≤ pre.length + moves.length + 1) :
    getIndexBeforeNextDeactivate
      { dir := d, isLoop := b, firstLineIndex := f, lineIndex := i,
        lines := loopLayer pre act moves deact }
      = some ((pre.length : ℤ) + moves.length - 1) := by
  rw [getIndexBeforeNextDeactivate]
  dsimp only
  rw [loopLayer_findDeact hpre hact hdeact hmoves hi]
  dsimp only
  congr 1
  push_cast
  ring

theorem deactIdx_none_lit (d : IterDir) (b : Bool) (f : Option ℤ) {i : ℤ}
    (hi : pre.length + moves.length + 2 ≤ (i + 1).toNat) :
    getIndexBeforeNextDeactivate
      { dir := d, isLoop := b, firstLineIndex := f, lineIndex := i,
        lines := loopLayer pre act moves deact } = none := by
  rw [getIndexBeforeNextDeactivate]
  dsimp only
  rw [loopLayer_findDeact_none hi]

theorem actIdx_lit
    (hact : act.command = "M101") (hdeact : deact.command = "M103")
    (hmoves : ∀ m ∈ moves, m.command = "G1")
    (d : IterDir) (b : Bool) (f : Option ℤ) {i : ℤ}
    (hp : 1 ≤ pre.length) (hi : (pre.length : ℤ) ≤ i - 1) :
    getIndexJustAfterActivate
      { dir := d, isLoop := b, firstLineIndex := f, lineIndex := i,
        lines := loopLayer pre act moves deact }
      = some ((pre.length : ℤ) + 1) := by
  rw [getIndexJustAfterActivate]
  dsimp only
  rw [loopLayer_findActDown hact hdeact hmoves (i - 1).toNat hp (by omega)]

/-- Backward inner loop, descending through the activate command and the
preamble: it exits at index -1 and signals `Exhausted`. -/
theorem backwardLoop_descend
    (hpre : ∀ l ∈ pre, l.command ≠ "G1" ∧ l.command ≠ "M101" ∧ l.command ≠ "M103")
    (hact : act.command = "M101") :
    ∀ (fuel : ℕ) (i : ℤ) (f : Option ℤ),
      i ≤ (pre.length : ℤ) →
      (∀ j, f = some j → i < j) →
      (i + 2).toNat ≤ fuel → 1 ≤ fuel →
      backwardLoop fuel (loopIter pre act moves deact .backward f i) = .exhausted := by
  intro fuel
  induction fuel with
  | zero =>
    intro i f h1 h2 h3 h4
    omega
  | succ fu ih =>
    intro i f h1 h2 h3 h4
    rw [backwardLoop]
    dsimp only [loopIter]
    by_cases h0 : (0 : ℤ) ≤ i
    · rw [if_pos h0]
      rw [if_neg (fun he => absurd (h2 i he) (lt_irrefl i))]
      rw [markFirst_lit]
      dsimp only
      rw [lineAt, if_pos h0]
      by_cases hip : i.toNat < pre.length
      · obtain ⟨l, hl, hmem⟩ := @loopLayer_get_pre pre act moves deact i.toNat hip
        rw [hl]
        dsimp only
        rw [if_neg (hpre l hmem).2.2, if_neg (hpre l hmem).1]
        exact ih (i - 1) (markF f i) (by omega)
          (markF_ne (fun k hk => by have := h2 k hk; omega) (by omega)) (by omega) (by omega)
      · have hip2 : i.toNat = pre.length := by omega
        rw [show (loopLayer pre act moves deact)[i.toNat]? = some act by
            rw [hip2]; exact loopLayer_get_act]
        dsimp only
        rw [if_neg (by rw [hact]; decide), if_neg (by rw [hact]; decide)]
        exact ih (i - 1) (markF f i) (by omega)
          (markF_ne (fun k hk => by have := h2 k hk; omega) (by omega)) (by omega) (by omega)
    · rw [if_neg h0]

/-- Backward inner loop at a move index: the move is returned and the
cursor steps down. -/
theorem backwardLoop_move
    (hdeact : deact.command = "M103") (hmoves : ∀ m ∈ moves, m.command = "G1")
    (fu : ℕ) (i : ℤ) (f : Option ℤ)
    (h1 : (pre.length : ℤ) + 1 ≤ i) (h2 : i ≤ (pre.length : ℤ) + moves.length)
    (hf : ∀ j, f = some j → i ≠ j) :
    ∃ m ∈ moves, backwardLoop (fu + 1) (loopIter pre act moves deact .backward f i)
      = .line m (loopIter pre act moves deact .backward (markF f i) (i - 1)) := by
  have h0 : (0 : ℤ) ≤ i := by omega
  obtain ⟨m, hm, hmem⟩ := @loopLayer_get_move pre act moves deact i.toNat (by omega) (by omega)
  refine ⟨m, hmem, ?_⟩
  rw [backwardLoop]
  dsimp only [loopIter]
  rw [if_pos h0]
  rw [if_neg (fun he => absurd rfl (hf i he))]
  rw [markFirst_lit]
  dsimp only
  rw [lineAt, if_pos h0, hm]
  dsimp only
  rw [if_neg (by rw [hmoves m hmem]; decide), if_pos (hmoves m hmem)]
  rw [loopLayer_isBeforeExtrusion_false hdeact hmoves (by omega : (pre.length : ℤ) ≤ i)
    .backward true (markF f i)]
  rw [if_neg (by decide : ¬ (false = true))]

theorem exhaustsWithinB_of_exhausted (fuel k : ℕ) {it : LineIterator}
    (h : it.getNext fuel = .exhausted) : exhaustsWithinB fuel k it = true := by
  cases k <;> rw [exhaustsWithinB, h]

theorem exhaustsWithinB_of_line (fuel k : ℕ) {it it' : LineIterator} {l : GLine}
    (h : it.getNext fuel = .line l it') (hk : 1 ≤ k)
    (h2 : exhaustsWithinB fuel (k - 1) it' = true) : exhaustsWithinB fuel k it = true := by
  obtain ⟨k', rfl⟩ : ∃ k', k = k' + 1 := ⟨k - 1, by omega⟩
  rw [exhaustsWithinB, h]
  exact h2

theorem exhaustsWithinB_congr (fuel k : ℕ) {it it' : LineIterator}
    (h : it.getNext fuel = it'.getNext fuel) :
    exhaustsWithinB fuel k it = exhaustsWithinB fuel k it' := by
  cases k <;> rw [exhaustsWithinB, exhaustsWithinB, h]

/-- `getNext` on a backward cursor at index ≥ 1 skips the wrap step. -/
theorem backwardNext_no_wrap (fuel : ℕ) (f : Option ℤ) {i : ℤ} (hi : 1 ≤ i) :
    backwardNext fuel (loopIter pre act moves deact .backward f i)
      = backwardLoop fuel (loopIter pre act moves deact .backward f i) := by
  rw [backwardNext, if_neg (fun h => absurd h.1 (by dsimp only [loopIter]; omega))]

/-- The backward cursor called at the deactivate line exhausts at once:
the wrap search for a further deactivate starts past the end. -/
theorem backwardLoop_deact
    (hdeact : deact.command = "M103") (fu : ℕ) (f : Option ℤ)
    (hf : ∀ j, f = some j → j ≠ (pre.length : ℤ) + moves.length + 1) :
    backwardLoop (fu + 1)
      (loopIter pre act moves deact .backward f ((pre.length : ℤ) + moves.length + 1))
      = .exhausted := by
  rw [backwardLoop]
  dsimp only [loopIter]
  rw [if_pos (by omega)]
  rw [if_neg (fun he => absurd rfl (hf _ he))]
  rw [markFirst_lit]
  dsimp only
  rw [lineAt, if_pos (by omega)]
  rw [show (loopLayer pre act moves deact)[((pre.length : ℤ) + ↑moves.length + 1).toNat]?
      = some deact by
    rw [show ((pre.length : ℤ) + ↑moves.length + 1).toNat = pre.length + moves.length + 1 by
      omega]
    exact loopLayer_get_deact]
  dsimp only
  rw [if_pos hdeact, if_pos rfl]
  rw [deactIdx_none_lit .backward true (markF f ((pre.length : ℤ) + ↑moves.length + 1))
    (by omega)]

/-- Backward cursor starting at a valid index with a first-visit record
strictly above it: at most `i - pre.length` moves come back before
`Exhausted`. -/
theorem backward_count
    (hpre : ∀ l ∈ pre, l.command ≠ "G1" ∧ l.command ≠ "M101" ∧ l.command ≠ "M103")
    (hact : act.command = "M101") (hdeact : deact.command = "M103")
    (hmoves : ∀ m ∈ moves, m.command = "G1") (hp : 1 ≤ pre.length) :
    ∀ (k : ℕ) (i : ℤ) (f : Option ℤ) (fuel : ℕ),
      1 ≤ i → i ≤ (pre.length : ℤ) + moves.length →
      (∀ j, f = some j → i < j) →
      (i - pre.length).toNat ≤ k →
      (i + 2).toNat + 1 ≤ fuel →
      exhaustsWithinB fuel k (loopIter pre act moves deact .backward f i) = true := by
  intro k
  induction k with
  | zero =>
    intro i f fuel h1 h2 hf hk hfuel
    have hip : i ≤ (pre.length : ℤ) := by omega
    exact exhaustsWithinB_of_exhausted fuel 0
      (by
        rw [show (loopIter pre act moves deact .backward f i).getNext fuel
            = backwardNext fuel (loopIter pre act moves deact .backward f i) from rfl]
        rw [backwardNext_no_wrap fuel f h1]
        exact backwardLoop_descend hpre hact fuel i f hip hf (by omega) (by omega))
  | succ k ih =>
    intro i f fuel h1 h2 hf hk hfuel
    by_cases hip : i ≤ (pre.length : ℤ)
    · exact exhaustsWithinB_of_exhausted fuel (k + 1)
        (by
          rw [show (loopIter pre act moves deact .backward f i).getNext fuel
              = backwardNext fuel (loopIter pre act moves deact .backward f i) from rfl]
          rw [backwardNext_no_wrap fuel f h1]
          exact backwardLoop_descend hpre hact fuel i f hip hf (by omega) (by omega))
    · obtain ⟨fu, rfl⟩ : ∃ fu, fuel = fu + 1 := ⟨fuel - 1, by omega⟩
      obtain ⟨m, hmem, hrun⟩ := backwardLoop_move hdeact hmoves fu i f (by omega) h2
        (fun j hj => ne_of_lt (hf j hj))
      refine exhaustsWithinB_of_line (fu + 1) (k + 1)
        (?_ :
          (loopIter pre act moves deact .backward f i).getNext (fu + 1)
            = .line m (loopIter pre act moves deact .backward (markF f i) (i - 1)))
        (by omega) ?_
      · rw [show (loopIter pre act moves deact .backward f i).getNext (fu + 1)
            = backwardNext (fu + 1) (loopIter pre act moves deact .backward f i) from rfl]
        rw [backwardNext_no_wrap (fu + 1) f h1]
        exact hrun
      · exact ih (i - 1) (markF f i) (fu + 1) (by omega) (by omega)
          (markF_ne (fun j hj => by have := hf j hj; omega) (by omega)) (by omega) (by omega)

/-- Backward cursor from any valid start index of the canonical loop
layer: at most `moves.length` returned lines before `Exhausted`. -/
theorem backward_exhausts
    (hpre : ∀ l ∈ pre, l.command ≠ "G1" ∧ l.command ≠ "M101" ∧ l.command ≠ "M103")
    (hact : act.command = "M101") (hdeact : deact.command = "M103")
    (hmoves : ∀ m ∈ moves, m.command = "G1")
    (hp : 1 ≤ pre.length) (hN : 1 ≤ moves.length)
    (fuel : ℕ) (s : ℤ) (h0 : 0 ≤ s) (h2 : s ≤ (pre.length : ℤ) + moves.length + 1)
    (hfuel : pre.length + moves.length + 4 ≤ fuel) :
    exhaustsWithinB fuel moves.length (loopIter pre act moves deact .backward none s)
      = true := by
  obtain ⟨fu, rfl⟩ : ∃ fu, fuel = fu + 1 := ⟨fuel - 1, by omega⟩
  by_cases hs0 : s = 0
  · subst hs0
    have hwrap : backwardNext (fu + 1) (loopIter pre act moves deact .backward none 0)
        = backwardLoop (fu + 1)
            (loopIter pre act moves deact .backward none
              ((pre.length : ℤ) + moves.length - 1)) := by
      rw [backwardNext]
      dsimp only [loopIter]
      rw [if_pos (show (0 : ℤ) < 1 ∧ true = true from ⟨by omega, rfl⟩)]
      rw [deactIdx_lit hpre hact hdeact hmoves .backward true none (by omega)]
    have hcongr := exhaustsWithinB_congr (fu + 1) moves.length
      (show (loopIter pre act moves deact .backward none 0).getNext (fu + 1)
          = (loopIter pre act moves deact .backward none
              ((pre.length : ℤ) + moves.length - 1)).getNext (fu + 1) by
        rw [show (loopIter pre act moves deact .backward none 0).getNext (fu + 1)
            = backwardNext (fu + 1) (loopIter pre act moves deact .backward none 0) from rfl]
        rw [show (loopIter pre act moves deact .backward none
              ((pre.length : ℤ) + moves.length - 1)).getNext (fu + 1)
            = backwardNext (fu + 1) (loopIter pre act moves deact .backward none
              ((pre.length : ℤ) + moves.length - 1)) from rfl]
        rw [backwardNext_no_wrap (fu + 1) none
          (show (1 : ℤ) ≤ (pre.length : ℤ) + moves.length - 1 by omega)]
        exact hwrap)
    rw [hcongr]
    exact backward_count hpre hact hdeact hmoves hp moves.length
      ((pre.length : ℤ) + moves.length - 1) none (fu + 1) (by omega) (by omega)
      (fun j hj => by cases hj) (by omega) (by omega)
  · by_cases hsd : s ≤ (pre.length : ℤ) + moves.length
    · exact backward_count hpre hact hdeact hmoves hp moves.length s none (fu + 1)
        (by omega) hsd (fun j hj => by cases hj) (by omega) (by omega)
    · have hs : s = (pre.length : ℤ) + moves.length + 1 := by omega
      subst hs
      exact exhaustsWithinB_of_exhausted (fu + 1) moves.length
        (by
          rw [show (loopIter pre act moves deact .backward none
                ((pre.length : ℤ) + moves.length + 1)).getNext (fu + 1)
              = backwardNext (fu + 1) (loopIter pre act moves deact .backward none
                ((pre.length : ℤ) + moves.length + 1)) from rfl]
          rw [backwardNext_no_wrap (fu + 1) none (by omega)]
          exact backwardLoop_deact hdeact fu none (fun j hj => by cases hj))

theorem markF_markF (f : Option ℤ) (i j : ℤ) : markF (markF f i) j = markF f i := by
  cases f <;> rfl

theorem markF_some (a i : ℤ) : markF (some a) i = some a := rfl

/-- Forward cursor revisiting the index recorded on its first call:
`StopIteration`. -/
theorem forwardLoop_self (fu : ℕ) (i : ℤ)
    (hi : i < (pre.length : ℤ) + moves.length + 2) :
    forwardLoop (fu + 1) (loopIter pre act moves deact .forward (some i) i) = .exhausted := by
  rw [forwardLoop]
  dsimp only [loopIter]
  rw [if_pos (by rw [loopLayer_length]; push_cast; omega), if_pos rfl]

/-- Forward cursor at a move index: the move is returned and the cursor
steps up. -/
theorem forwardLoop_move
    (hmoves : ∀ m ∈ moves, m.command = "G1")
    (fu : ℕ) (i : ℤ) (f : Option ℤ)
    (h1 : (pre.length : ℤ) + 1 ≤ i) (h2 : i ≤ (pre.length : ℤ) + moves.length)
    (hf : ∀ j, f = some j → i ≠ j) :
    ∃ m ∈ moves, forwardLoop (fu + 1) (loopIter pre act moves deact .forward f i)
      = .line m (loopIter pre act moves deact .forward (markF f i) (i + 1)) := by
  obtain ⟨m, hm, hmem⟩ := @loopLayer_get_move pre act moves deact i.toNat (by omega) (by omega)
  refine ⟨m, hmem, ?_⟩
  rw [forwardLoop]
  dsimp only [loopIter]
  rw [if_pos (by rw [loopLayer_length]; push_cast; omega)]
  rw [if_neg (fun he => absurd rfl (hf i he))]
  rw [markFirst_lit]
  dsimp only
  rw [lineAt, if_pos (by omega), hm]
  dsimp only
  rw [if_neg (by rw [hmoves m hmem]; decide), if_pos (hmoves m hmem)]

/-- Forward cursor at the deactivate line whose wrap target `p + 1` is the
recorded first index: the wrapped call stops at once. -/
theorem forwardLoop_deact_exhausts
    (hact : act.command = "M101") (hdeact : deact.command = "M103")
    (hmoves : ∀ m ∈ moves, m.command = "G1")
    (hp : 1 ≤ pre.length) (hN : 1 ≤ moves.length) (fu : ℕ) :
    forwardLoop (fu + 2)
      (loopIter pre act moves deact .forward (some ((pre.length : ℤ) + 1))
        ((pre.length : ℤ) + moves.length + 1)) = .exhausted := by
  rw [forwardLoop]
  dsimp only [loopIter]
  rw [if_pos (by rw [loopLayer_length]; push_cast; omega)]
  rw [if_neg (by intro he; rw [Option.some_inj] at he; omega)]
  rw [markFirst_lit, markF_some]
  dsimp only
  rw [lineAt, if_pos (by omega)]
  rw [show (loopLayer pre act moves deact)[((pre.length : ℤ) + ↑moves.length + 1).toNat]?
      = some deact by
    rw [show ((pre.length : ℤ) + ↑moves.length + 1).toNat = pre.length + moves.length + 1 by
      omega]
    exact loopLayer_get_deact]
  dsimp only
  rw [if_pos hdeact, if_pos rfl]
  rw [actIdx_lit hact hdeact hmoves .forward true
    (some ((pre.length : ℤ) + 1)) hp (by omega)]
  dsimp only
  rw [forwardLoop]
  dsimp only
  rw [if_pos (by rw [loopLayer_length]; push_cast; omega), if_pos rfl]

/-- Forward cursor at the deactivate line whose wrap target is not the
recorded first index: a move is returned from index `p + 1` and the
cursor lands at `p + 2`. -/
theorem forwardLoop_deact_move
    (hact : act.command = "M101") (hdeact : deact.command = "M103")
    (hmoves : ∀ m ∈ moves, m.command = "G1")
    (hp : 1 ≤ pre.length) (hN : 1 ≤ moves.length) (fu : ℕ) (f : Option ℤ)
    (hf : ∀ j, f = some j → j ≠ (pre.length : ℤ) + moves.length + 1)
    (hf2 : markF f ((pre.length : ℤ) + moves.length + 1) ≠ some ((pre.length : ℤ) + 1)) :
    ∃ m ∈ moves, forwardLoop (fu + 2)
        (loopIter pre act moves deact .forward f ((pre.length : ℤ) + moves.length + 1))
      = .line m (loopIter pre act moves deact .forward
          (markF f ((pre.length : ℤ) + moves.length + 1)) ((pre.length : ℤ) + 2)) := by
  obtain ⟨m, hm, hmem⟩ := @loopLayer_get_move pre act moves deact (pre.length + 1)
    (by omega) (by omega)
  refine ⟨m, hmem, ?_⟩
  rw [forwardLoop]
  dsimp only [loopIter]
  rw [if_pos (by rw [loopLayer_length]; push_cast; omega)]
  rw [if_neg (fun he => absurd rfl (hf _ he))]
  rw [markFirst_lit]
  dsimp only
  rw [lineAt, if_pos (by omega)]
  rw [show (loopLayer pre act moves deact)[((pre.length : ℤ) + ↑moves.length + 1).toNat]?
      = some deact by
    rw [show ((pre.length : ℤ) + ↑moves.length + 1).toNat = pre.length + moves.length + 1 by
      omega]
    exact loopLayer_get_deact]
  dsimp only
  rw [if_pos hdeact, if_pos rfl]
  rw [actIdx_lit hact hdeact hmoves .forward true
    (markF f ((pre.length : ℤ) + ↑moves.length + 1)) hp (by omega)]
  dsimp only
  rw [forwardLoop]
  dsimp only
  rw [if_pos (by rw [loopLayer_length]; push_cast; omega)]
  rw [if_neg hf2]
  rw [markFirst_lit, markF_markF]
  dsimp only
  rw [lineAt, if_pos (by omega)]
  rw [show (loopLayer pre act moves deact)[((pre.length : ℤ) + 1).toNat]? = some m by
    rw [show ((pre.length : ℤ) + 1).toNat = pre.length + 1 by omega]
    exact hm]
  dsimp only
  rw [if_neg (by rw [hmoves m hmem]; decide), if_pos (hmoves m hmem)]
  rw [show ((pre.length : ℤ) + 1 + 1) = (pre.length : ℤ) + 2 by ring]

/-- Forward cursor with a recorded first index inside the loop: the
cyclic distance back to that index bounds the number of returned moves. -/
theorem forward_count
    (hact : act.command = "M101") (hdeact : deact.command = "M103")
    (hmoves : ∀ m ∈ moves, m.command = "G1")
    (hp : 1 ≤ pre.length) (hN : 1 ≤ moves.length) :
    ∀ (k : ℕ) (i f₀ : ℤ) (fuel : ℕ),
      (pre.length : ℤ) + 1 ≤ i → i ≤ (pre.length : ℤ) + moves.length + 1 →
      (pre.length : ℤ) + 1 ≤ f₀ → f₀ ≤ (pre.length : ℤ) + moves.length + 1 →
      (if i ≤ f₀ then f₀ - i
        else ((pre.length : ℤ) + moves.length + 1 - i) + (f₀ - pre.length - 1)).toNat ≤ k →
      pre.length + moves.length + 4 ≤ fuel →
      exhaustsWithinB fuel k (loopIter pre act moves deact .forward (some f₀) i) = true := by
  intro k
  induction k with
  | zero =>
    intro i f₀ fuel h1 h2 g1 g2 hk hfuel
    by_cases hif : i = f₀
    · subst hif
      obtain ⟨fu, rfl⟩ : ∃ fu, fuel = fu + 1 := ⟨fuel - 1, by omega⟩
      exact exhaustsWithinB_of_exhausted (fu + 1) 0
        (by
          rw [show (loopIter pre act moves deact .forward (some i) i).getNext (fu + 1)
              = forwardLoop (fu + 1) (loopIter pre act moves deact .forward (some i) i)
            from rfl]
          exact forwardLoop_self fu i (by omega))
    · by_cases hdm : i = (pre.length : ℤ) + moves.length + 1 ∧ f₀ = (pre.length : ℤ) + 1
      · rcases hdm with ⟨rfl, rfl⟩
        obtain ⟨fu, rfl⟩ : ∃ fu, fuel = fu + 2 := ⟨fuel - 2, by omega⟩
        exact exhaustsWithinB_of_exhausted (fu + 2) 0
          (forwardLoop_deact_exhausts hact hdeact hmoves hp hN fu)
      · exfalso
        split_ifs at hk <;> omega
  | succ k ih =>
    intro i f₀ fuel h1 h2 g1 g2 hk hfuel
    by_cases hif : i = f₀
    · subst hif
      obtain ⟨fu, rfl⟩ : ∃ fu, fuel = fu + 1 := ⟨fuel - 1, by omega⟩
      exact exhaustsWithinB_of_exhausted (fu + 1) (k + 1)
        (by
          rw [show (loopIter pre act moves deact .forward (some i) i).getNext (fu + 1)
              = forwardLoop (fu + 1) (loopIter pre act moves deact .forward (some i) i)
            from rfl]
          exact forwardLoop_self fu i (by omega))
    · by_cases him : i ≤ (pre.length : ℤ) + moves.length
      · obtain ⟨fu, rfl⟩ : ∃ fu, fuel = fu + 1 := ⟨fuel - 1, by omega⟩
        obtain ⟨m, hmem, hrun⟩ := forwardLoop_move hmoves fu i (some f₀) h1 him
          (fun j hj => by rw [Option.some_inj] at hj; omega)
        refine exhaustsWithinB_of_line (fu + 1) (k + 1)
          (?_ :
            (loopIter pre act moves deact .forward (some f₀) i).getNext (fu + 1)
              = .line m (loopIter pre act moves deact .forward (markF (some f₀) i) (i + 1)))
          (by omega) ?_
        · exact hrun
        · exact ih (i + 1) f₀ (fu + 1) (by omega) (by omega) g1 g2
            (by split_ifs at hk ⊢ <;> omega) (by omega)
      · by_cases hfp : f₀ = (pre.length : ℤ) + 1
        · subst hfp
          obtain rfl : i = (pre.length : ℤ) + moves.length + 1 := by omega
          obtain ⟨fu, rfl⟩ : ∃ fu, fuel = fu + 2 := ⟨fuel - 2, by omega⟩
          exact exhaustsWithinB_of_exhausted (fu + 2) (k + 1)
            (forwardLoop_deact_exhausts hact hdeact hmoves hp hN fu)
        · obtain rfl : i = (pre.length : ℤ) + moves.length + 1 := by omega
          obtain ⟨fu, rfl⟩ : ∃ fu, fuel = fu + 2 := ⟨fuel - 2, by omega⟩
          obtain ⟨m, hmem, hrun⟩ := forwardLoop_deact_move hact hdeact hmoves hp hN fu
            (some f₀) (fun j hj => by rw [Option.some_inj] at hj; omega)
            (by rw [markF_some]; intro he; rw [Option.some_inj] at he; omega)
          refine exhaustsWithinB_of_line (fu + 2) (k + 1)
            (?_ :
              (loopIter pre act moves deact .forward (some f₀)
                  ((pre.length : ℤ) + moves.length + 1)).getNext (fu + 2)
                = .line m (loopIter pre act moves deact .forward
                    (markF (some f₀) ((pre.length : ℤ) + moves.length + 1))
                    ((pre.length : ℤ) + 2)))
            (by omega) ?_
          · exact hrun
          · exact ih ((pre.length : ℤ) + 2) f₀ (fu + 2) (by omega) (by omega) g1 g2
              (by split_ifs at hk ⊢ <;> omega) (by omega)

/-- Forward cursor from any index strictly after the activate command:
at most `moves.length` returned lines before `Exhausted`. -/
theorem forward_exhausts
    (hact : act.command = "M101") (hdeact : deact.command = "M103")
    (hmoves : ∀ m ∈ moves, m.command = "G1")
    (hp : 1 ≤ pre.length) (hN : 1 ≤ moves.length)
    (fuel : ℕ) (s : ℤ) (h1 : (pre.length : ℤ) + 1 ≤ s)
    (h2 : s ≤ (pre.length : ℤ) + moves.length + 1)
    (hfuel : pre.length + moves.length + 4 ≤ fuel) :
    exhaustsWithinB fuel moves.length (loopIter pre act moves deact .forward none s)
      = true := by
  by_cases hsd : s ≤ (pre.length : ℤ) + moves.length
  · obtain ⟨fu, rfl⟩ : ∃ fu, fuel = fu + 1 := ⟨fuel - 1, by omega⟩
    obtain ⟨m, hmem, hrun⟩ := forwardLoop_move hmoves fu s none h1 hsd
      (fun j hj => by cases hj)
    refine exhaustsWithinB_of_line (fu + 1) moves.length
      (?_ :
        (loopIter pre act moves deact .forward none s).getNext (fu + 1)
          = .line m (loopIter pre act moves deact .forward (markF none s) (s + 1)))
      (by omega) ?_
    · exact hrun
    · exact forward_count hact hdeact hmoves hp hN (moves.length - 1) (s + 1) s (fu + 1)
        (by omega) (by omega) h1 (by omega)
        (by rw [if_neg (by omega : ¬ s + 1 ≤ s)]; omega) (by omega)
  · obtain rfl : s = (pre.length : ℤ) + moves.length + 1 := by omega
    obtain ⟨fu, rfl⟩ : ∃ fu, fuel = fu + 2 := ⟨fuel - 2, by omega⟩
    obtain ⟨m, hmem, hrun⟩ := forwardLoop_deact_move hact hdeact hmoves hp hN fu none
      (fun j hj => by cases hj)
      (by
        intro he
        rw [show markF none ((pre.length : ℤ) + moves.length + 1)
            = some ((pre.length : ℤ) + moves.length + 1) from rfl, Option.some_inj] at he
        omega)
    refine exhaustsWithinB_of_line (fu + 2) moves.length
      (?_ :
        (loopIter pre act moves deact .forward none
            ((pre.length : ℤ) + moves.length + 1)).getNext (fu + 2)
          = .line m (loopIter pre act moves deact .forward
              (markF none ((pre.length : ℤ) + moves.length + 1)) ((pre.length : ℤ) + 2)))
      (by omega) ?_
    · exact hrun
    · exact forward_count hact hdeact hmoves hp hN (moves.length - 1)
        ((pre.length : ℤ) + 2) ((pre.length : ℤ) + moves.length + 1) (fu + 2)
        (by omega) (by omega) (by omega) (by omega)
        (by rw [if_pos (by omega : (pre.length : ℤ) + 2 ≤ (pre.length : ℤ) + moves.length + 1)]
            omega)
        (by omega)

end LoopTermination2

/-- C4 (amended). In a loop layer consisting of non-move preamble lines,
an `M101` activate, one or more `G1` moves, and an `M103` deactivate —
with at least one line before the activate — a looping cursor's repeated
`getNext` calls raise `StopIteration` after returning at most
`moves.length` lines: a backward cursor from any start index, a forward
cursor from any start index strictly after the activate command. (The
spec's unconditional claim fails for forward starts at or before the
activate index: see the counterexample.) -/
theorem C4_loop_cursor_exhaustion
    (pre : List GLine) (act : GLine) (moves : List GLine) (deact : GLine)
    (hpre : ∀ l ∈ pre, l.command ≠ "G1" ∧ l.command ≠ "M101" ∧ l.command ≠ "M103")
    (hact : act.command = "M101") (hdeact : deact.command = "M103")
    (hmoves : ∀ m ∈ moves, m.command = "G1")
    (hp : 1 ≤ pre.length) (hN : 1 ≤ moves.length)
    (d : IterDir) (s : ℤ) (fuel : ℕ)
    (hfuel : pre.length + moves.length + 4 ≤ fuel)
    (hs : (d = .backward ∧ 0 ≤ s ∧ s ≤ (pre.length : ℤ) + moves.length + 1) ∨
        (d = .forward ∧ (pre.length : ℤ) + 1 ≤ s ∧
          s ≤ (pre.length : ℤ) + moves.length + 1)) :
    exhaustsWithinB fuel moves.length
      { dir := d, isLoop := true, firstLineIndex := none, lineIndex := s,
        lines := loopLayer pre act moves deact } = true := by
  rcases hs with ⟨hd, h0, h2⟩ | ⟨hd, h1, h2⟩ <;> subst hd
  · exact backward_exhausts hpre hact hdeact hmoves hp hN fuel s h0 h2 hfuel
  · exact forward_exhausts hact hdeact hmoves hp hN fuel s h1 h2 hfuel

/-- Witness for C4: the two-move loop layer, forward cursor started just
after the activate command, exhausts within two returned lines. -/
theorem C4_loop_cursor_exhaustion_witness :
    exhaustsWithinB 9 2
      { dir := IterDir.forward, isLoop := true, firstLineIndex := none, lineIndex := 2,
        lines := loopLayer [cmtLine] m101Line [g1aLine, g1bLine] m103Line } = true :=
  C4_loop_cursor_exhaustion [cmtLine] m101Line [g1aLine, g1bLine] m103Line
    (by decide) (by decide) (by decide) (by decide) (by decide) (by decide)
    IterDir.forward 2 9 (by decide)
    (Or.inr ⟨rfl, by decide, by decide⟩)

end GcodeStretch
